
import Mathlib

/-!
Verification development for the A.N.Y.A. conversational-assistant repository.

The repository contains two near-duplicate revisions of the assistant
component:

* `src/src/Anya.js` — the Firestore revision (cloud document store for chat
  history, `getAIResponse` with an `AbortController`);
* `src/unnamed/part_001` — the local-storage revision (browser `localStorage`
  for chat history, an `else if` chain of tool gates).

This file gives a shallow embedding of the routing, tool, creator-mode,
persistence and logging logic of both revisions, and proves or refutes the
frozen claims about them.

Modelling conventions, used throughout:

* JavaScript strings are Lean `String` / `List Char`.  Inputs come from a
  single-line text field or from speech transcripts, so the regex dot `.`
  (any character except a line terminator) is modelled as "any character";
  `\s` is modelled as the ASCII whitespace characters.
* JavaScript numbers are modelled as exact (unreduced) integer fractions
  plus an explicit `NaN` marker (`JNum`); where the source compares numbers
  (`===`), the model compares fraction values, and number-to-string
  formatting is modelled by a fixed rendering function, since exact
  IEEE-754 decimal output is not a property any claim depends on.
* Network calls (`fetch`), the generative-model endpoint, the browser search
  tools and `new Function` evaluation are modelled as environment
  parameters; everything computed locally by the source is embedded
  directly.
-/

/-- The apostrophe character (U+0027), used inside several of the source's
message strings and regex literals. -/
def apoc : Char := Char.ofNat 39

/-- The apostrophe as a one-character string. -/
def apos : String := String.singleton apoc

/-- JavaScript `\s` (ASCII part): space, tab, newline, carriage return,
vertical tab, form feed. -/
def isWSp (c : Char) : Bool :=
  c = ' ' || c = Char.ofNat 9 || c = Char.ofNat 10 || c = Char.ofNat 13 ||
  c = Char.ofNat 11 || c = Char.ofNat 12

/-- JavaScript `\d`: the decimal digits. -/
def isDig (c : Char) : Bool := '0' ≤ c && c ≤ '9'

/-- The character class `[a-z]`. -/
def isLowAZ (c : Char) : Bool := 'a' ≤ c && c ≤ 'z'

/-- The character class `[\d\s\+\-\*\/\(\)\.]` of the arithmetic regex in
`performCalculationOrConversion`. -/
def isMathCls (c : Char) : Bool :=
  isDig c || isWSp c || c = '+' || c = '-' || c = '*' || c = '/' ||
  c = '(' || c = ')' || c = '.'

/-- The character class `[\d.]` of the unit-conversion regex. -/
def isNumDot (c : Char) : Bool := isDig c || c = '.'

/-- JavaScript `String.prototype.toLowerCase`, restricted to ASCII (the
source's inputs and patterns are ASCII). -/
def lowChar (c : Char) : Char :=
  if 'A' ≤ c && c ≤ 'Z' then Char.ofNat (c.toNat + 32) else c

/-- `toLowerCase` on a whole string. -/
def jsToLower (s : String) : String := String.mk (s.data.map lowChar)

/-- JavaScript `String.prototype.trim` on a character list: drop ASCII
whitespace from both ends. -/
def jsTrimL (cs : List Char) : List Char :=
  ((cs.dropWhile isWSp).reverse.dropWhile isWSp).reverse

/-- `trim` on a string. -/
def jsTrim (s : String) : String := String.mk (jsTrimL s.data)

/-- Is `p` a prefix of `s` (on character lists)? -/
def preL : List Char → List Char → Bool
  | [], _ => true
  | _ :: _, [] => false
  | p :: ps, c :: cs => p = c && preL ps cs

/-- Does `s` contain `pat` as a substring?  Models JavaScript
`String.prototype.includes`. -/
def hasSubL (s pat : List Char) : Bool :=
  preL pat s ||
    match s with
    | [] => false
    | _ :: t => hasSubL t pat

/-- `includes` on strings. -/
def jsIncludes (s pat : String) : Bool := hasSubL s.data pat.data

/-- JavaScript `String.prototype.startsWith`. -/
def jsStarts (s pat : String) : Bool := preL pat.data s.data

/-- Strip the literal `lit` from the front of `s`, returning the remainder.
`none` when `lit` is not a prefix. -/
def stripLitL : List Char → List Char → Option (List Char)
  | [], s => some s
  | _ :: _, [] => none
  | l :: ls, c :: cs => if c = l then stripLitL ls cs else none

/-!
### A small backtracking matcher

Each regex of the source is hand-compiled to a list of alternatives, each
alternative a sequence of atoms.  The matcher implements the exact
JavaScript `RegExp.prototype.match` (no `g` flag) search order: leftmost
starting position first, alternatives in written order, greedy one-or-more
and zero-or-more with backtracking.
-/

/-- One atom of a compiled regex alternative. -/
inductive RAtom where
  /-- A literal character sequence. -/
  | lit (cs : List Char)
  /-- Greedy `+` over a character class; `cap` records whether the atom is a
  capturing group. -/
  | plusC (p : Char → Bool) (cap : Bool)
  /-- Greedy `\s*`. -/
  | starWS
  /-- Exactly `n` characters of a class, as in `[a-z]{2}`; capturing when
  `cap`. -/
  | repC (p : Char → Bool) (n : Nat) (cap : Bool)
  /-- An inner alternation of literals, as in `(instagram|facebook|x|social
  media)`; capturing when `cap`. -/
  | litAlts (alts : List (List Char)) (cap : Bool)

/-- Greedy one-or-more over the class `p`: consume at least one character,
prefer consuming more, and on failure of the continuation backtrack to
shorter matches.  `acc` holds the consumed characters in reverse. -/
def greedyPlus {α : Type} (p : Char → Bool) (acc : List Char) :
    List Char → (List Char → List Char → Option α) → Option α
  | [], _ => none
  | c :: rest, k =>
    if p c then
      (greedyPlus p (c :: acc) rest k) <|> k (c :: acc).reverse rest
    else none

/-- Greedy zero-or-more over the class `p`. -/
def greedyStar {α : Type} (p : Char → Bool) :
    List Char → (List Char → Option α) → Option α
  | [], k => k []
  | c :: rest, k =>
    if p c then (greedyStar p rest k) <|> k (c :: rest) else k (c :: rest)

/-- Consume exactly `n` characters of class `p`, returning them and the
remainder. -/
def takeRep (p : Char → Bool) : Nat → List Char → Option (List Char × List Char)
  | 0, s => some ([], s)
  | _ + 1, [] => none
  | n + 1, c :: rest =>
    if p c then (takeRep p n rest).map (fun g => (c :: g.1, g.2)) else none

/-- First `some` produced by `f` over a list, in order. -/
def firstSome {α β : Type} : List β → (β → Option α) → Option α
  | [], _ => none
  | b :: bs, f => (f b) <|> firstSome bs f

/-- Match a sequence of atoms against `s` at the current position,
accumulating the captures (in reverse) and returning them on success.  A
successful match may leave a remainder (the regexes are not end-anchored). -/
def matchSeq : List RAtom → List Char → List (List Char) → Option (List (List Char))
  | [], _, caps => some caps.reverse
  | .lit cs :: as, s, caps =>
    match stripLitL cs s with
    | some rest => matchSeq as rest caps
    | none => none
  | .plusC p cap :: as, s, caps =>
    greedyPlus p [] s (fun g rest => matchSeq as rest (if cap then g :: caps else caps))
  | .starWS :: as, s, caps =>
    greedyStar isWSp s (fun rest => matchSeq as rest caps)
  | .repC p n cap :: as, s, caps =>
    match takeRep p n s with
    | some g => matchSeq as g.2 (if cap then g.1 :: caps else caps)
    | none => none
  | .litAlts alts cap :: as, s, caps =>
    firstSome alts (fun l =>
      match stripLitL l s with
      | some rest => matchSeq as rest (if cap then l :: caps else caps)
      | none => none)

/-- Worker for `tryAlts`: try the alternatives in order, numbering them
from `i`. -/
def tryAltsGo (s : List Char) : Nat → List (List RAtom) → Option (Nat × List (List Char))
  | _, [] => none
  | i, a :: rest =>
    match matchSeq a s [] with
    | some caps => some (i, caps)
    | none => tryAltsGo s (i + 1) rest

/-- Try each alternative at the current position, in written order,
returning the (0-based) index of the alternative that matched together with
its captures. -/
def tryAlts (alts : List (List RAtom)) (s : List Char) : Option (Nat × List (List Char)) :=
  tryAltsGo s 0 alts

/-- JavaScript `String.prototype.match` against an alternation: scan
starting positions left to right, trying all alternatives at each. -/
def reFind (alts : List (List RAtom)) : List Char → Option (Nat × List (List Char))
  | [] => tryAlts alts []
  | s@(_ :: t) => (tryAlts alts s) <|> reFind alts t

/-!
### JavaScript numbers and dynamic values

`JNum` models a JavaScript number as an exact rational or `NaN`.  `JVal`
models the dynamically typed values flowing through the hand-written
arithmetic evaluator of `performCalculationOrConversion` (numbers, the
one-character operator strings pushed into `parts`, and `undefined` from
out-of-range array reads).
-/

/-- An exact number as an unreduced integer fraction.  The denominator is
kept positive by every operation that the model performs; fractions are
compared by value (`Frac.eqv`), never by representation, wherever the
source compares numbers. -/
structure Frac where
  num : Int
  den : Nat
deriving DecidableEq

/-- The fraction `n / 1` of an integer. -/
def Frac.ofInt (n : Int) : Frac := ⟨n, 1⟩

/-- Value equality of fractions (cross multiplication). -/
def Frac.eqv (x y : Frac) : Bool := x.num * (y.den : Int) = y.num * (x.den : Int)

/-- Is the fraction the number zero? -/
def Frac.isZero (x : Frac) : Bool := x.num = 0

/-- Fraction addition. -/
def fAdd (x y : Frac) : Frac := ⟨x.num * y.den + y.num * x.den, x.den * y.den⟩

/-- Fraction subtraction. -/
def fSub (x y : Frac) : Frac := ⟨x.num * y.den - y.num * x.den, x.den * y.den⟩

/-- Fraction multiplication. -/
def fMul (x y : Frac) : Frac := ⟨x.num * y.num, x.den * y.den⟩

/-- Fraction division (the divisor's sign is moved to the numerator to keep
the denominator non-negative).  Division by a zero fraction is guarded
against at every use. -/
def fDiv (x y : Frac) : Frac :=
  ⟨x.num * y.den * (if y.num < 0 then -1 else 1), x.den * y.num.natAbs⟩

/-- A JavaScript number: an exact fraction, or `NaN`. -/
inductive JNum where
  | val (x : Frac)
  | nan
deriving DecidableEq

/-- Addition with `NaN` propagation. -/
def jnAdd : JNum → JNum → JNum
  | .val a, .val b => .val (fAdd a b)
  | _, _ => .nan

/-- Subtraction with `NaN` propagation. -/
def jnSub : JNum → JNum → JNum
  | .val a, .val b => .val (fSub a b)
  | _, _ => .nan

/-- Multiplication with `NaN` propagation. -/
def jnMul : JNum → JNum → JNum
  | .val a, .val b => .val (fMul a b)
  | _, _ => .nan

/-- Division with `NaN` propagation.  The evaluator only divides after its
explicit `num === 0` check, so the zero-divisor case is unreachable there;
it is mapped to `NaN`. -/
def jnDiv : JNum → JNum → JNum
  | .val a, .val b => if b.isZero then .nan else .val (fDiv a b)
  | _, _ => .nan

/-- `x === 0` on a JavaScript number (`NaN === 0` is false). -/
def JNum.isZero : JNum → Bool
  | .val x => x.isZero
  | .nan => false

/-- Decimal digit string of a natural number. -/
def natRepr (n : Nat) : String := Nat.repr n

/-- Decimal digit string of an integer. -/
def intRepr : Int → String
  | .ofNat n => natRepr n
  | .negSucc n => "-" ++ natRepr (n + 1)

/-- Rendering of an exact fraction as a string.  JavaScript renders numbers
in decimal floating point; no claim depends on the exact digits, so the
model uses an exact rendering (integer when the denominator is 1, `num/den`
otherwise). -/
def fRepr (x : Frac) : String :=
  if x.den = 1 then intRepr x.num else intRepr x.num ++ "/" ++ natRepr x.den

/-- Rendering of a `JNum` (JavaScript template-literal interpolation). -/
def jnRepr : JNum → String
  | .val x => fRepr x
  | .nan => "NaN"

/-- A dynamically typed JavaScript value inside the arithmetic evaluator. -/
inductive JVal where
  | num (x : JNum)
  | str (s : String)
  | undef
deriving DecidableEq

/-- Template-literal rendering of a `JVal`. -/
def jvRepr : JVal → String
  | .num x => jnRepr x
  | .str s => s
  | .undef => "undefined"

/-- JavaScript `ToNumber` on the values that occur in `parts`: the operator
and parenthesis one-character strings and `undefined` all convert to
`NaN`. -/
def toNumJ : JVal → JNum
  | .num x => x
  | .str _ => .nan
  | .undef => .nan

/-- JavaScript `+` on the evaluator's values: string concatenation when a
string is involved, numeric addition (through `ToNumber`) otherwise. -/
def jsAddV : JVal → JVal → JVal
  | .str a, b => .str (a ++ jvRepr b)
  | a, .str b => .str (jvRepr a ++ b)
  | a, b => .num (jnAdd (toNumJ a) (toNumJ b))

/-!
### The arithmetic evaluator of `performCalculationOrConversion`
(src/src/Anya.js lines 213–271)
-/

/-- The operator characters recognised by the tokenizer loop
(`const operators = ['*', '/', '+', '-', '(', ')']`). -/
def isOpChar (c : Char) : Bool :=
  c = '*' || c = '/' || c = '+' || c = '-' || c = '(' || c = ')'

/-- Numeric value of a digit character. -/
def digC (c : Char) : Int := (c.toNat - 48 : ℕ)

/-- Fractional value of a digit list read after the decimal point. -/
def fracVal : List Char → Frac
  | [] => Frac.ofInt 0
  | c :: rest => fDiv (fAdd (Frac.ofInt (digC c)) (fracVal rest)) (Frac.ofInt 10)

/-- Value of a digit list read as an integer, with accumulator. -/
def digitsVal (acc : Frac) : List Char → Frac
  | [] => acc
  | c :: rest => digitsVal (fAdd (fMul (Frac.ofInt 10) acc) (Frac.ofInt (digC c))) rest

/-- JavaScript `parseFloat` on the character sequences the tokenizer
accumulates (digits and dots): leading digits, optionally a dot and more
digits; `NaN` when no digit is found before a second dot or the end. -/
def parseFloatQ (cs : List Char) : JNum :=
  let intPart := cs.takeWhile isDig
  let rest := cs.dropWhile isDig
  match rest with
  | c :: rest2 =>
    if c = '.' then
      let fracPart := rest2.takeWhile isDig
      if intPart.isEmpty && fracPart.isEmpty then .nan
      else .val (fAdd (digitsVal (Frac.ofInt 0) intPart) (fracVal fracPart))
    else if intPart.isEmpty then .nan else .val (digitsVal (Frac.ofInt 0) intPart)
  | [] => if intPart.isEmpty then .nan else .val (digitsVal (Frac.ofInt 0) intPart)

/-- `if (currentNum) { parts.push(parseFloat(currentNum)); }` — flush the
accumulated number characters (held in reverse) into a parts entry. -/
def flushNum (cur : List Char) : List JVal :=
  if cur.isEmpty then [] else [JVal.num (parseFloatQ cur.reverse)]

/-- The tokenizer loop of `evaluateExpression`: operators and parentheses
are pushed as one-character strings, whitespace flushes the pending number,
all other characters extend the pending number. -/
def toParts : List Char → List Char → List JVal
  | [], cur => flushNum cur
  | c :: rest, cur =>
    if isOpChar c then flushNum cur ++ JVal.str (String.singleton c) :: toParts rest []
    else if isWSp c then flushNum cur ++ toParts rest []
    else toParts rest (c :: cur)

/-- One step of the evaluation loop: `if (op === '+') ... else if (op ===
'/') { if (num === 0) throw ...; ... }`.  An operator entry that is not one
of the four operator strings leaves the accumulator unchanged.  The thrown
`Error("Division by zero")` is the `Except.error`. -/
def applyOp (acc opv arg : JVal) : Except Unit JVal :=
  if opv = JVal.str "+" then .ok (jsAddV acc arg)
  else if opv = JVal.str "-" then .ok (.num (jnSub (toNumJ acc) (toNumJ arg)))
  else if opv = JVal.str "*" then .ok (.num (jnMul (toNumJ acc) (toNumJ arg)))
  else if opv = JVal.str "/" then
    if (match arg with | JVal.num x => x.isZero | _ => false) then .error ()
    else .ok (.num (jnDiv (toNumJ acc) (toNumJ arg)))
  else .ok acc

/-- The loop `for (let i = 1; i < parts.length; i += 2)`: `parts[i]` is the
operator, `parts[i + 1]` the operand (`undefined` past the end). -/
def evalPairs (acc : JVal) : List JVal → Except Unit JVal
  | [] => .ok acc
  | [opv] =>
    match applyOp acc opv JVal.undef with
    | .ok acc2 => .ok acc2
    | .error e => .error e
  | opv :: arg :: rest =>
    match applyOp acc opv arg with
    | .ok acc2 => evalPairs acc2 rest
    | .error e => .error e

/-- `evaluateExpression`: tokenize, then fold the operator/operand pairs
left to right starting from `parts[0]` (`undefined` when `parts` is
empty). -/
def evaluateExpression (expr : List Char) : Except Unit JVal :=
  match toParts expr [] with
  | [] => .ok JVal.undef
  | p0 :: rest => evalPairs p0 rest

/-!
### `performCalculationOrConversion` (src/src/Anya.js lines 209–314)
-/

/-- `expression = mathMatch[1].replace(/x/g, '*').replace(/÷/g, '/')`
(character-wise; the replaced characters cannot in fact occur in the
captured class). -/
def replXDiv (c : Char) : Char := if c = 'x' then '*' else if c = '÷' then '/' else c

/-- The regex `.` (any character; inputs are single-line, see the header). -/
def anyC (_ : Char) : Bool := true

/-- The arithmetic regex `(?:what is|calculate)\s+([\d\s\+\-\*\/\(\)\.]+)`,
with the leading alternation unfolded into two alternatives. -/
def mathRE : List (List RAtom) :=
  [[.lit "what is".data, .plusC isWSp false, .plusC isMathCls true],
   [.lit "calculate".data, .plusC isWSp false, .plusC isMathCls true]]

/-- The unit-conversion regex
`convert\s+([\d.]+)\s*([a-z]+)\s+to\s+([a-z]+)|([\d.]+)\s*([a-z]+)\s+in\s+([a-z]+)`. -/
def convertRE : List (List RAtom) :=
  [[.lit "convert".data, .plusC isWSp false, .plusC isNumDot true, .starWS,
    .plusC isLowAZ true, .plusC isWSp false, .lit "to".data, .plusC isWSp false,
    .plusC isLowAZ true],
   [.plusC isNumDot true, .starWS, .plusC isLowAZ true, .plusC isWSp false,
    .lit "in".data, .plusC isWSp false, .plusC isLowAZ true]]

/-- A conversion-table entry: a numeric factor, or one of the two
temperature functions. -/
inductive Conv where
  | factor (r : Frac)
  | c2f
  | f2c
deriving DecidableEq

/-- The `conversions` table of src/src/Anya.js lines 282–291. -/
def convTable (f t : String) : Option Conv :=
  if f = "km" && t = "miles" then some (.factor ⟨621371, 1000000⟩)
  else if f = "km" && t = "m" then some (.factor ⟨1000, 1⟩)
  else if f = "miles" && t = "km" then some (.factor ⟨160934, 100000⟩)
  else if f = "celsius" && t = "fahrenheit" then some .c2f
  else if f = "fahrenheit" && t = "celsius" then some .f2c
  else if f = "kg" && t = "pounds" then some (.factor ⟨220462, 100000⟩)
  else if f = "pounds" && t = "kg" then some (.factor ⟨453592, 1000000⟩)
  else if f = "m" && t = "feet" then some (.factor ⟨328084, 100000⟩)
  else if f = "feet" && t = "m" then some (.factor ⟨3048, 10000⟩)
  else none

/-- Forward application of a table entry (`conversions[fromUnit][toUnit]`):
multiply by the factor, or apply the temperature function. -/
def applyConvFwd : Conv → Frac → Frac
  | .factor r, v => fMul v r
  | .c2f, v => fAdd (fDiv (fMul v ⟨9, 1⟩) ⟨5, 1⟩) ⟨32, 1⟩
  | .f2c, v => fDiv (fMul (fSub v ⟨32, 1⟩) ⟨5, 1⟩) ⟨9, 1⟩

/-- Reverse application (`conversions[toUnit][fromUnit]`, lines 302–308):
divide by a factor, but apply a function entry directly as written. -/
def applyConvRev : Conv → Frac → Frac
  | .factor r, v => fDiv v r
  | c, v => applyConvFwd c v

/-- `Number.prototype.toFixed(2)`, modelled as rounding `100·x` to the
nearest integer (half toward positive infinity) and printing two decimal
digits. -/
def fToFixed2 (x : Frac) : String :=
  let n : Int := Int.fdiv (2 * (x.num * 100) + (x.den : Int)) (2 * (x.den : Int))
  let m := n.natAbs
  (if n < 0 then "-" else "") ++ natRepr (m / 100) ++ "." ++
    (if m % 100 < 10 then "0" else "") ++ natRepr (m % 100)

/-- `${value} ${fromUnit} is approximately ${convertedValue.toFixed(2)}
${toUnit}.` -/
def convReport (value : Frac) (fromU toU : String) (converted : Frac) : String :=
  fRepr value ++ " " ++ fromU ++ " is approximately " ++ fToFixed2 converted
    ++ " " ++ toU ++ "."

/-- The apology returned when the arithmetic evaluator throws
(src/src/Anya.js line 269). -/
def mathApology : String :=
  "I" ++ apos ++ "m sorry, I couldn" ++ apos ++ "t perform that calculation."

/-- The unit-conversion half of `performCalculationOrConversion`
(src/src/Anya.js lines 274–312). -/
def performConversionA (lowerQuery : List Char) : Option String :=
  match reFind convertRE lowerQuery with
  | none => none
  | some g =>
    let caps := g.2
    let vS := caps.getD 0 []
    let fU := String.mk ((caps.getD 1 []).map lowChar)
    let tU := String.mk ((caps.getD 2 []).map lowChar)
    match parseFloatQ vS with
    | .nan => none
    | .val value =>
      match convTable fU tU with
      | some conv => some (convReport value fU tU (applyConvFwd conv value))
      | none =>
        match convTable tU fU with
        | some conv => some (convReport value fU tU (applyConvRev conv value))
        | none => none

/-- `performCalculationOrConversion` of the Firestore revision
(src/src/Anya.js lines 209–314): lowercase the query, try the arithmetic
regex (falling through when the capture is empty, which cannot in fact
happen), then the conversion regex; `null` becomes `none`. -/
def performCalculationOrConversion (query : String) : Option String :=
  let lowerQuery := (jsToLower query).data
  match reFind mathRE lowerQuery with
  | some g =>
    let cap := (g.2).getD 0 []
    if cap.isEmpty then performConversionA lowerQuery
    else
      let expression := cap.map replXDiv
      match evaluateExpression expression with
      | .ok v => some ("The result is: " ++ jvRepr v)
      | .error _ => some mathApology
  | none => performConversionA lowerQuery

/-!
### `performCalculationOrConversion` of the local-storage revision
(src/unnamed/part_001 lines 182–230)
-/

/-- The apology of the local-storage revision's calculator when
`new Function` evaluation fails (part_001 line 208). -/
def mathApology13 : String :=
  "I" ++ apos ++ "m sorry, I couldn" ++ apos ++
  "t perform that calculation. Please enter a valid mathematical expression."

/-- The reduced `conversions` table of part_001 line 222. -/
def convTable13 (f t : String) : Option Frac :=
  if f = "km" && t = "miles" then some ⟨621371, 1000000⟩
  else if f = "miles" && t = "km" then some ⟨160934, 100000⟩
  else none

/-- The unit-conversion half of the local-storage revision (part_001 lines
216–228): forward table lookup only, no reverse branch. -/
def performConversion13 (lowerQuery : List Char) : Option String :=
  match reFind convertRE lowerQuery with
  | none => none
  | some g =>
    let caps := g.2
    let vS := caps.getD 0 []
    let fU := String.mk ((caps.getD 1 []).map lowChar)
    let tU := String.mk ((caps.getD 2 []).map lowChar)
    match parseFloatQ vS with
    | .nan => none
    | .val value =>
      match convTable13 fU tU with
      | some r => some (convReport value fU tU (fMul value r))
      | none => none

/-- `performCalculationOrConversion` of the local-storage revision (part_001
lines 182–230).  Its `safeEval` runs the expression through
`new Function('return ' + expression)()`; that JavaScript-engine evaluation
is modelled by the environment parameter `evalJS` (`none` models a thrown
exception, mapped to `null` by `safeEval`). -/
def performCalculation13 (evalJS : String → Option String) (query : String) :
    Option String :=
  let lowerQuery := (jsToLower query).data
  match reFind mathRE lowerQuery with
  | some g =>
    let e := ((g.2).getD 0 []).map replXDiv
    match evalJS (String.mk e) with
    | some r => some ("The result is: " ++ r)
    | none => some mathApology13
  | none => performConversion13 lowerQuery

/-!
### The tool regexes and canned tool responses
-/

/-- `weather in (.+)|what's the weather like in (.+)|temperature in (.+)`
(src/src/Anya.js line 926). -/
def weatherREA : List (List RAtom) :=
  [[.lit "weather in ".data, .plusC anyC true],
   [.lit ("what".data ++ [apoc] ++ "s the weather like in ".data), .plusC anyC true],
   [.lit "temperature in ".data, .plusC anyC true]]

/-- `weather in (.+)|what's the weather like in (.+)` (part_001 line 478). -/
def weatherRE13 : List (List RAtom) :=
  [[.lit "weather in ".data, .plusC anyC true],
   [.lit ("what".data ++ [apoc] ++ "s the weather like in ".data), .plusC anyC true]]

/-- `translate "(.+)" to ([a-z]{2})|translate (.+) to ([a-z]{2})` (both
revisions). -/
def translateRE : List (List RAtom) :=
  [[.lit ("translate \"".data), .plusC anyC true, .lit ("\" to ".data),
    .repC isLowAZ 2 true],
   [.lit "translate ".data, .plusC anyC true, .lit " to ".data,
    .repC isLowAZ 2 true]]

/-- `news about (.+)|top stories|latest news` (src/src/Anya.js line 946). -/
def newsREA : List (List RAtom) :=
  [[.lit "news about ".data, .plusC anyC true],
   [.lit "top stories".data],
   [.lit "latest news".data]]

/-- `news about (.+)` (part_001 line 487). -/
def newsRE13 : List (List RAtom) :=
  [[.lit "news about ".data, .plusC anyC true]]

/-- `search for (.+) on (instagram|facebook|x|social media)` (both
revisions). -/
def socialRE : List (List RAtom) :=
  [[.lit "search for ".data, .plusC anyC true, .lit " on ".data,
    .litAlts ["instagram".data, "facebook".data, "x".data, "social media".data] true]]

/-- `search (google|duckduckgo) for (.+)|what is the (.+)|who is (.+)|search
for (.+)` (src/src/Anya.js line 960). -/
def internetREA : List (List RAtom) :=
  [[.lit "search ".data, .litAlts ["google".data, "duckduckgo".data] true,
    .lit " for ".data, .plusC anyC true],
   [.lit "what is the ".data, .plusC anyC true],
   [.lit "who is ".data, .plusC anyC true],
   [.lit "search for ".data, .plusC anyC true]]

/-- `search (google|duckduckgo) for (.+)|search for (.+)` (part_001 line
493). -/
def internetRE13 : List (List RAtom) :=
  [[.lit "search ".data, .litAlts ["google".data, "duckduckgo".data] true,
    .lit " for ".data, .plusC anyC true],
   [.lit "search for ".data, .plusC anyC true]]

/-- `performTranslation` of the Firestore revision (src/src/Anya.js line
327): a fixed limitation message. -/
def performTranslationA (text targetLang : String) : String :=
  "Real-time translation for \"" ++ text ++ "\" to " ++ targetLang ++
  " requires a backend service with a translation API. I can" ++ apos ++
  "t perform that directly."

/-- `getNewsHeadlines` of the Firestore revision (src/src/Anya.js line 343);
`${topic || 'general'}` treats the empty string as falsy. -/
def getNewsHeadlinesA (topic : String) : String :=
  "To provide real-time news headlines about " ++
  (if topic = "" then "general" else topic) ++
  ", I would need access to a live news API through a backend service. I cannot fetch that information directly."

/-- `socialMediaSearch` of the Firestore revision (src/src/Anya.js line
434). -/
def socialMediaSearchA (personName : String) : String :=
  "Due to privacy restrictions and API limitations, I cannot access real-time personal profiles on platforms like Instagram, Facebook, or X. Therefore, I cannot search for \""
  ++ personName ++ "\" on social media."

/-- `performTranslation` of the local-storage revision (part_001 line
235). -/
def performTranslation13 (text targetLang : String) : String :=
  "Real-time translation for \"" ++ text ++ "\" to " ++ targetLang ++
  " requires a backend service. I can" ++ apos ++ "t perform that directly."

/-- `getNewsHeadlines` of the local-storage revision (part_001 line 243):
the topic is not interpolated. -/
def getNewsHeadlines13 : String :=
  "To provide real-time news headlines, I would need access to a live news API. I cannot fetch that information directly."

/-- `socialMediaSearch` of the local-storage revision (part_001 line 257):
the person's name is not interpolated. -/
def socialMediaSearch13 : String :=
  "Due to privacy restrictions and API limitations, I cannot access real-time personal profiles on platforms."

/-- `searchInternet` of the local-storage revision (part_001 line 251): a
deterministic mock.  `engine` is the optional first capture; the default
parameter value is `'google'`. -/
def searchInternet13 (query : String) (engine : Option String) : String :=
  "(Mock Search) I found some general information about \"" ++ query ++
  "\" using " ++ engine.getD "google" ++
  ". For example, Wikipedia has an article on it."

/-!
### Creator-mode session state (identical in both revisions:
src/src/Anya.js lines 892–917, part_001 lines 446–471)
-/

/-- The four boolean session flags of the creator-recognition logic. -/
structure CState where
  isCalvinRecognized : Bool
  awaitingPassword : Bool
  hiddenFunctionUnlocked : Bool
  awaitingVoiceCommand : Bool
deriving DecidableEq

/-- The all-false initial state (the `useState(false)` initialisers). -/
def cInit : CState := ⟨false, false, false, false⟩

/-- Which creator branch fired during a turn. -/
inductive CBranch where
  | nameRecog
  | pwAccept
  | pwReject
  | goodbye
  | openVoice
deriving DecidableEq

/-- `trimmedInput.toLowerCase().includes('calvin')`. -/
def containsCalvin (trimmedInput : String) : Bool :=
  jsIncludes (jsToLower trimmedInput) "calvin"

/-- The creator-recognition `if`/`else if` chain, as a state transition on
the session flags plus the branch that fired (`none` when no branch
matched and control falls through to the tool chain). -/
def creatorUpdate (st : CState) (trimmedInput : String) : CState × Option CBranch :=
  if containsCalvin trimmedInput && !st.isCalvinRecognized then
    ({ st with isCalvinRecognized := true, awaitingPassword := true }, some .nameRecog)
  else if st.awaitingPassword && trimmedInput = "1945" then
    ({ st with hiddenFunctionUnlocked := true, awaitingPassword := false }, some .pwAccept)
  else if st.awaitingPassword && trimmedInput ≠ "1945" then
    ({ st with awaitingPassword := false }, some .pwReject)
  else if st.hiddenFunctionUnlocked && jsToLower trimmedInput = "good-bye" then
    ({ st with hiddenFunctionUnlocked := false, isCalvinRecognized := false,
               awaitingPassword := false }, some .goodbye)
  else if st.hiddenFunctionUnlocked && jsToLower trimmedInput = "open voice command" then
    ({ st with awaitingVoiceCommand := true }, some .openVoice)
  else (st, none)

/-- The creator-branch response strings of the Firestore revision. -/
def creatorMsgA : CBranch → String
  | .nameRecog => "Hello, Calvin. I recognize your name. Please provide the password to unlock special functions."
  | .pwAccept => "Password accepted. Creator Mode unlocked. Welcome back, Calvin. What can I do for you?"
  | .pwReject => "Incorrect password. Special functions remain locked."
  | .goodbye => "Creator Mode deactivated. Goodbye, Calvin."
  | .openVoice => "Voice Command mode activated. I" ++ apos ++ "m listening for your command. Please speak after the beep."

/-- The creator-branch response strings of the local-storage revision. -/
def creatorMsg13 : CBranch → String
  | .nameRecog => "Hello, Calvin. I recognize your name. Please provide the password to unlock special functions."
  | .pwAccept => "Password accepted. Creator Mode unlocked. Welcome back, Calvin."
  | .pwReject => "Incorrect password. Special functions remain locked."
  | .goodbye => "Creator Mode deactivated. Goodbye, Calvin."
  | .openVoice => "Voice Command mode activated. I" ++ apos ++ "m listening for your command."

/-- The session-flag effect of submitting one raw input: `handleSendMessage`
trims the input, returns unchanged on an empty result (the
`if (!trimmedInput ...) return` guard), and otherwise runs the creator
chain; nothing later in the handler touches the flags. -/
def creatorTurn (st : CState) (rawInput : String) : CState :=
  let t := jsTrim rawInput
  if t = "" then st else (creatorUpdate st t).1

/-- The session flags after a sequence of submitted inputs. -/
def runCreator (st : CState) : List String → CState
  | [] => st
  | inp :: rest => runCreator (creatorTurn st inp) rest

/-!
### Persisted chat-message records

A persisted record is modelled as an association list of field names to
values, in the order the fields are written in the source object literals.
`serverTimestamp()` is an opaque sentinel; `new Date().toISOString()` is an
instant taken from the environment clock.
-/

/-- A field value of a persisted record. -/
inductive FVal where
  | str (s : String)
  | serverTime
  | isoTime (t : Nat)
deriving DecidableEq

/-- A persisted record: named fields in written order. -/
abbrev FDoc := List (String × FVal)

/-- Does the record have a field with the given name? -/
def hasField (d : FDoc) (k : String) : Bool := d.any (fun kv => kv.1 = k)

/-- The user message object of the Firestore revision (src/src/Anya.js
lines 881–886), persisted unchanged at line 985. -/
def newUserMessageA (text : String) (now : Nat) : FDoc :=
  [("sender", .str "user"), ("text", .str text), ("timestamp", .serverTime),
   ("localTimestamp", .isoTime now)]

/-- The model-response record of the Firestore revision (lines 986–991). -/
def modelMessageA (text : String) (now : Nat) : FDoc :=
  [("sender", .str "model"), ("text", .str text), ("timestamp", .serverTime),
   ("localTimestamp", .isoTime now)]

/-- The user record persisted by `processVoiceCommand` (src/src/Anya.js
lines 640–645). -/
def voiceUserMessageA (commandText : String) (now : Nat) : FDoc :=
  [("sender", .str "user"), ("text", .str commandText), ("timestamp", .serverTime),
   ("localTimestamp", .isoTime now)]

/-- The model record persisted by `processVoiceCommand` (lines 646–651). -/
def voiceModelMessageA (text : String) (now : Nat) : FDoc :=
  [("sender", .str "model"), ("text", .str text), ("timestamp", .serverTime),
   ("localTimestamp", .isoTime now)]

/-- The user message object of the local-storage revision (part_001 lines
432–436). -/
def userMessage13 (text : String) (now : Nat) : FDoc :=
  [("sender", .str "user"), ("text", .str text), ("localTimestamp", .isoTime now)]

/-- The response record of the local-storage revision (part_001 lines
504–508). -/
def anyaMessage13 (text : String) (now : Nat) : FDoc :=
  [("sender", .str "anya"), ("text", .str text), ("localTimestamp", .isoTime now)]

/-!
### The tool-dispatch chains
-/

/-- The six local tools, in the order their checks appear in both
revisions. -/
inductive ToolIdx where
  | weather
  | calc
  | translate
  | news
  | social
  | internet
deriving DecidableEq

/-- Position of a tool in the check order. -/
def toolPos : ToolIdx → Nat
  | .weather => 0
  | .calc => 1
  | .translate => 2
  | .news => 3
  | .social => 4
  | .internet => 5

/-- The check order as a list. -/
def toolOrder : List ToolIdx :=
  [.weather, .calc, .translate, .news, .social, .internet]

/-- An observable call made while handling a turn: a local tool invocation
or the `getAIResponse` network call. -/
inductive CallEvt where
  | tool (t : ToolIdx)
  | ai
deriving DecidableEq

/-- The environment of the Firestore revision: results of the remote or
browser-dependent calls (`getWeatherReport`'s network part is modelled
separately and can be plugged in as `weather`), the clock, and whether the
Firestore `addDoc` calls succeed. -/
structure EnvA where
  weather : String → String
  internet : String → String → String
  ai : String → List FDoc → String
  now : Nat
  persistOk : Bool

/-- String from a capture. -/
def capStr (caps : List (List Char)) (i : Nat) : String := String.mk (caps.getD i [])

/-- Trimmed string from a capture. -/
def capTrim (caps : List (List Char)) (i : Nat) : String :=
  String.mk (jsTrimL (caps.getD i []))

/-- The guarded body of each tool check of the Firestore revision's
`handleSendMessage` (src/src/Anya.js lines 925–967): `some` exactly when
the check would set `toolResponse`, carrying the response it would set. -/
def anyaBranch (env : EnvA) (inp : String) : ToolIdx → Option String :=
  let low := (jsToLower inp).data
  fun t =>
    match t with
    | .weather =>
      match reFind weatherREA low with
      | some g => some (env.weather (capTrim g.2 0))
      | none => none
    | .calc => performCalculationOrConversion inp
    | .translate =>
      match reFind translateRE low with
      | some g => some (performTranslationA (capTrim g.2 0) (capTrim g.2 1))
      | none => none
    | .news =>
      match reFind newsREA low with
      | some g =>
        some (getNewsHeadlinesA (if (g.2.getD 0 []).isEmpty then "general" else capTrim g.2 0))
      | none => none
    | .social =>
      match reFind socialRE low with
      | some g => some (socialMediaSearchA (capTrim g.2 0))
      | none => none
    | .internet =>
      match reFind internetREA low with
      | some g =>
        let engine := if g.1 = 0 then String.mk ((g.2.getD 0 []).map lowChar) else "google"
        let q := if g.1 = 0 then g.2.getD 1 [] else g.2.getD 0 []
        if q.isEmpty then none
        else some (env.internet (String.mk (jsTrimL q)) engine)
      | none => none

/-- The Firestore revision's tool chain (lines 921–978): each check runs
only while `toolResponse` is still null (`performCalculationOrConversion`
itself is always invoked at that point), and `getAIResponse` is the
fallback.  Returns the response together with the calls made. -/
def toolChainAnya (env : EnvA) (hist : List FDoc) (inp : String) :
    String × List CallEvt :=
  match anyaBranch env inp .weather with
  | some r => (r, [.tool .weather])
  | none =>
    match anyaBranch env inp .calc with
    | some r => (r, [.tool .calc])
    | none =>
      match anyaBranch env inp .translate with
      | some r => (r, [.tool .calc, .tool .translate])
      | none =>
        match anyaBranch env inp .news with
        | some r => (r, [.tool .calc, .tool .news])
        | none =>
          match anyaBranch env inp .social with
          | some r => (r, [.tool .calc, .tool .social])
          | none =>
            match anyaBranch env inp .internet with
            | some r => (r, [.tool .calc, .tool .internet])
            | none => (env.ai inp hist, [.tool .calc, .ai])

/-- First tool whose check fires, in check order, with its response — the
"first match wins" reading of the chain. -/
def firstToolA (env : EnvA) (inp : String) : Option (ToolIdx × String) :=
  toolOrder.findSome? (fun t => (anyaBranch env inp t).map (fun r => (t, r)))

/-- The Firestore revision's component state touched by
`handleSendMessage`: session flags, the local chat history, and the
per-user `chat_history` Firestore collection. -/
structure AnyaSt where
  c : CState
  chatHistory : List FDoc
  store : List FDoc

/-- `handleSendMessage` of the Firestore revision (src/src/Anya.js lines
871–1005): trim and guard, append the user message locally, run the
creator chain, then the tool chain or `getAIResponse` (with the stale
`chatHistory` closure value as context), and persist both records when the
`addDoc` calls succeed.  Returns the new state and, for a processed turn,
the response and call list. -/
def handleSendAnya (env : EnvA) (st : AnyaSt) (rawInput : String) :
    AnyaSt × Option (String × List CallEvt) :=
  let trimmedInput := jsTrim rawInput
  if trimmedInput = "" then (st, none) else
  let newUserMessage := newUserMessageA trimmedInput env.now
  let hist1 := st.chatHistory ++ [newUserMessage]
  let u := creatorUpdate st.c trimmedInput
  let rc : String × List CallEvt :=
    match u.2 with
    | some b => (creatorMsgA b, [])
    | none => toolChainAnya env st.chatHistory trimmedInput
  let store2 :=
    if env.persistOk then st.store ++ [newUserMessage, modelMessageA rc.1 env.now]
    else st.store
  ({ c := u.1, chatHistory := hist1, store := store2 }, some rc)

/-- The environment of the local-storage revision: the weather network
result, the JavaScript-engine evaluation used by `safeEval` (`none` models
a thrown exception), the generative-model result for an updated chat, and
the clock. -/
structure Env13 where
  weather : String → String
  evalJS : String → Option String
  ai : List FDoc → String
  now : Nat

/-- The `else if` gate of each tool branch in the local-storage revision's
`handleSendMessage` (part_001 lines 478–495). -/
def v13Gate (inp : String) : ToolIdx → Bool :=
  let low := jsToLower inp
  fun t =>
    match t with
    | .weather => (reFind weatherRE13 low.data).isSome
    | .calc => jsStarts low "calculate" || jsIncludes low "what is"
    | .translate => jsStarts low "translate"
    | .news => jsIncludes low "news"
    | .social => jsIncludes low "social media"
    | .internet => jsIncludes low "search"

/-- The body of each gated branch of the local-storage revision: the
`toolResponse` it assigns (`none` when the branch's inner regex fails and
the tool function is never invoked). -/
def v13Body (env : Env13) (inp : String) : ToolIdx → Option String :=
  let low := (jsToLower inp).data
  fun t =>
    match t with
    | .weather =>
      match reFind weatherRE13 low with
      | some g => some (env.weather (capStr g.2 0))
      | none => none
    | .calc => performCalculation13 env.evalJS inp
    | .translate =>
      match reFind translateRE low with
      | some g => some (performTranslation13 (capStr g.2 0) (capStr g.2 1))
      | none => none
    | .news => some getNewsHeadlines13
    | .social =>
      match reFind socialRE low with
      | some _ => some socialMediaSearch13
      | none => none
    | .internet =>
      match reFind internetRE13 low with
      | some g =>
        some (searchInternet13
          (String.mk (if g.1 = 0 then g.2.getD 1 [] else g.2.getD 0 []))
          (if g.1 = 0 then some (capStr g.2 0) else none))
      | none => none

/-- The local-storage revision's tool phase (part_001 lines 474–497): an
`else if` chain over the gates; only the first firing gate's branch runs,
and its tool function is invoked exactly when the branch assigns a
response (for `calc` and `news` the tool is invoked unconditionally once
the gate fires). -/
def toolPhase13 (env : Env13) (inp : String) : Option String × List CallEvt :=
  if v13Gate inp .weather then (v13Body env inp .weather, [.tool .weather])
  else if v13Gate inp .calc then (v13Body env inp .calc, [.tool .calc])
  else if v13Gate inp .translate then
    (v13Body env inp .translate,
     if (v13Body env inp .translate).isSome then [.tool .translate] else [])
  else if v13Gate inp .news then (v13Body env inp .news, [.tool .news])
  else if v13Gate inp .social then
    (v13Body env inp .social,
     if (v13Body env inp .social).isSome then [.tool .social] else [])
  else if v13Gate inp .internet then
    (v13Body env inp .internet,
     if (v13Body env inp .internet).isSome then [.tool .internet] else [])
  else (none, [])

/-- The tool whose branch actually fires produces a response: the
"matches a tool pattern" reading for the local-storage revision (the gate
fires and the branch assigns a response). -/
def v13Produces (env : Env13) (inp : String) (t : ToolIdx) : Option String :=
  if v13Gate inp t then v13Body env inp t else none

/-- Does the input match at least one local tool pattern (local-storage
revision)? -/
def v13MatchesSomeTool (env : Env13) (inp : String) : Bool :=
  toolOrder.any (fun t => (v13Produces env inp t).isSome)

/-- The component state of the local-storage revision: session flags, the
chat history, and the `localStorage` entry under the key `'chatHistory'`
(its JSON-decoded content; `none` models an absent key). -/
structure V13St where
  c : CState
  chatHistory : List FDoc
  storage : Option (List FDoc)

/-- `handleSendMessage` of the local-storage revision (part_001 lines
424–518): trim and guard, append and store the user message, run the
creator chain, then the gated tool chain, then the `getAIResponse`
fallback on the updated chat; finally append and store the response
record. -/
def handleSend13 (env : Env13) (st : V13St) (rawInput : String) :
    V13St × Option (String × List CallEvt) :=
  let inp := jsTrim rawInput
  if inp = "" then (st, none) else
  let userMsg := userMessage13 inp env.now
  let updatedChat := st.chatHistory ++ [userMsg]
  let u := creatorUpdate st.c inp
  let rc0 : Option String × List CallEvt :=
    match u.2 with
    | some b => (some (creatorMsg13 b), [])
    | none => toolPhase13 env inp
  let rc : String × List CallEvt :=
    match rc0.1 with
    | some r => (r, rc0.2)
    | none => (env.ai updatedChat, rc0.2 ++ [.ai])
  let finalChat := updatedChat ++ [anyaMessage13 rc.1 env.now]
  ({ c := u.1, chatHistory := finalChat, storage := some finalChat }, some rc)

/-- A concrete environment for the Firestore revision, used by witnesses
and counterexamples. -/
def envA0 : EnvA :=
  { weather := fun loc => "WEATHER " ++ loc
    internet := fun q e => "SEARCH " ++ q ++ " VIA " ++ e
    ai := fun m _ => "AI " ++ m
    now := 0
    persistOk := true }

/-- A concrete environment for the local-storage revision, used by
witnesses and counterexamples. -/
def env13C : Env13 :=
  { weather := fun loc => "WEATHER " ++ loc
    evalJS := fun _ => none
    ai := fun _ => "AI-RESPONSE"
    now := 0 }

/-!
### `getWeatherReport` (src/src/Anya.js lines 157–202)
-/

/-- Outcome of a `fetch` + `response.json()` pair: a thrown network
exception, or a response with its `ok` flag and parsed body. -/
inductive FetchRes (α : Type) where
  | throws (msg : String)
  | resp (ok : Bool) (data : α)

/-- One geocoding result (the fields destructured at line 176). -/
structure GeoPlace where
  latitude : Frac
  longitude : Frac
  name : String
  country : String

/-- The geocoding response body: a possibly absent `results` array and a
possibly absent `reason`. -/
structure GeoData where
  results : Option (List GeoPlace)
  reason : Option String

/-- The `current` block of the weather response. -/
structure WxCurrent where
  temperature : Frac
  humidity : Frac
  windSpeed : Frac

/-- The weather response body. -/
structure WxData where
  current : Option WxCurrent
  reason : Option String

/-- The two network interactions of one `getWeatherReport` call. -/
structure WeatherEnv where
  geo : FetchRes GeoData
  wx : FetchRes WxData

/-- The offline message (line 159). -/
def weatherOfflineMsg : String :=
  "I" ++ apos ++ "m sorry, I can" ++ apos ++
  "t fetch real-time weather data while I" ++ apos ++
  "m offline. Please check your internet connection."

/-- The unknown-location message (line 173). -/
def weatherNotFoundMsg (location : String) : String :=
  "🤔 I couldn" ++ apos ++ "t find a location called \"" ++ location ++
  "\". Please check the spelling or try a more specific name."

/-- The successful report (line 192). -/
def weatherReportMsg (name country : String) (cur : WxCurrent) : String :=
  "🌡️ The current weather in " ++ name ++ ", " ++ country ++ " is " ++
  fRepr cur.temperature ++ "°C. Humidity is " ++ fRepr cur.humidity ++
  "% and wind speed is " ++ fRepr cur.windSpeed ++ " km/h."

/-- The weather-API error message (line 195); `${weatherData.reason ||
'Unknown error'}` treats an absent or empty reason as falsy. -/
def weatherApiErrMsg (name country : String) (reason : Option String) : String :=
  "I encountered an error while fetching weather data for " ++ name ++ ", "
  ++ country ++ ": " ++
  (match reason with
   | some r => if r = "" then "Unknown error" else r
   | none => "Unknown error") ++
  ". Please try again later."

/-- The catch-all network message (line 200). -/
def weatherNetworkMsg : String :=
  "I" ++ apos ++ "m sorry, I couldn" ++ apos ++
  "t fetch the weather data due to a network issue. Please check your internet connection."

/-- The `try` block of `getWeatherReport` (lines 165–196), with thrown
exceptions as `Except.error`. -/
def getWeatherBody (env : WeatherEnv) (location : String) : Except String String :=
  match env.geo with
  | .throws m => .error m
  | .resp ok g =>
    if !ok || (g.results.getD []).isEmpty then
      .ok (weatherNotFoundMsg location)
    else
      match g.results.getD [] with
      | [] => .ok (weatherNotFoundMsg location)
      | place :: _ =>
        match env.wx with
        | .throws m => .error m
        | .resp wok w =>
          match w.current with
          | some cur =>
            if wok then .ok (weatherReportMsg place.name place.country cur)
            else .ok (weatherApiErrMsg place.name place.country w.reason)
          | none => .ok (weatherApiErrMsg place.name place.country w.reason)

/-- `getWeatherReport`: the offline guard, the `try` body, and the `catch`
that converts any thrown exception into the network message. -/
def getWeatherReport (connectionStatus : String) (env : WeatherEnv)
    (location : String) : String :=
  if connectionStatus = "offline" then weatherOfflineMsg
  else
    match getWeatherBody env location with
    | .ok s => s
    | .error _ => weatherNetworkMsg

/-!
### `getAIResponse` request cancellation (src/src/Anya.js lines 463–559)
-/

/-- Observable events of the `abortControllerRef` discipline: another
invocation of `getAIResponse`, or some outstanding request settling. -/
inductive AIEvent where
  | invoke
  | settle (id : Nat)
deriving DecidableEq

/-- The cancellation state: the id the ref currently holds, and which
request ids have been issued, aborted, or settled. -/
structure AIConc where
  nextId : Nat
  ref : Option Nat
  issued : List Nat
  aborted : List Nat
  settled : List Nat

/-- Initial state: `abortControllerRef.current = null`, no requests. -/
def aiInit : AIConc := ⟨0, none, [], [], []⟩

/-- The synchronous prefix of `getAIResponse` (lines 464–469): abort the
controller the ref still holds, install a fresh controller, and issue the
new request with its signal. -/
def aiInvoke (s : AIConc) : AIConc :=
  { nextId := s.nextId + 1
    ref := some s.nextId
    issued := s.nextId :: s.issued
    aborted := (match s.ref with | some i => i :: s.aborted | none => s.aborted)
    settled := s.settled }

/-- One event step. -/
def aiStep (s : AIConc) : AIEvent → AIConc
  | .invoke => aiInvoke s
  | .settle i => { s with settled := i :: s.settled }

/-- State after a sequence of events. -/
def runAI (events : List AIEvent) : AIConc := events.foldl aiStep aiInit

/-- Requests that are in flight: issued, not aborted, not settled. -/
def aiOutstanding (s : AIConc) : List Nat :=
  s.issued.filter (fun i => !(decide (i ∈ s.aborted)) && !(decide (i ∈ s.settled)))

/-- The side-effect order of the synchronous prefix of one `getAIResponse`
invocation: the old controller's `abort()` strictly precedes the new
`fetch`. -/
inductive AIAction where
  | abortReq (i : Nat)
  | issueReq (i : Nat)
deriving DecidableEq

/-- Actions performed by lines 464–469, in program order. -/
def aiInvokeActions (s : AIConc) : List AIAction :=
  (match s.ref with | some i => [.abortReq i] | none => []) ++ [.issueReq s.nextId]

/-- Outcome of the awaited fetch inside `getAIResponse`. -/
inductive AIOutcome where
  /-- `response.ok` with a first candidate text (`none` models a missing or
  empty `candidates` structure). -/
  | ok (text : Option String)
  /-- `!response.ok` with a status and error message: the code throws
  `API Error: ...` and the generic catch branch formats it. -/
  | httpErr (status : Nat) (msg : String)
  /-- The fetch rejects with `AbortError` (the request was cancelled). -/
  | abortErr
  /-- The fetch rejects with any other error. -/
  | netErr (msg : String)

/-- The value `getAIResponse` resolves to, per outcome (lines 528–554). -/
def aiResponseText : AIOutcome → String
  | .ok (some t) => t
  | .ok none =>
    "I" ++ apos ++ "m sorry, I couldn" ++ apos ++
    "t generate a response. The AI model returned an empty reply."
  | .httpErr status msg =>
    "I" ++ apos ++
    "m sorry, I encountered an error while trying to get a response. Please try again later. (API Error: "
    ++ natRepr status ++ " - " ++ msg ++ ")"
  | .abortErr => "Request cancelled."
  | .netErr msg =>
    "I" ++ apos ++
    "m sorry, I encountered an error while trying to get a response. Please try again later. ("
    ++ msg ++ ")"

/-!
### `addLog` (src/src/Anya.js lines 52–58; identically part_001 lines
41–47)
-/

/-- A system-log entry. -/
structure LogEntry where
  timestamp : Nat
  message : String
  logType : String

/-- `Array.prototype.slice(-50)`: the suffix of the most recent 50
entries. -/
def sliceLast50 (l : List LogEntry) : List LogEntry := l.drop (l.length - 50)

/-- `addLog`: append the new entry and keep only the last 50. -/
def addLog (logs : List LogEntry) (now : Nat) (message logType : String) :
    List LogEntry :=
  sliceLast50 (logs ++ [⟨now, message, logType⟩])

/-!
## Helper definitions for the proofs

Invariants on the embedded state machines and digit-string builders used by
the calculator theorems.
-/

/-- Invariant of the cancellation state: issued ids are below `nextId` and
distinct, and an issued id that has not been aborted must be the id the
ref currently holds. -/
def AIInv (s : AIConc) : Prop :=
  (∀ i ∈ s.issued, i < s.nextId) ∧
  s.issued.Nodup ∧
  (∀ i ∈ s.issued, i ∉ s.aborted → s.ref = some i)

/-- Did the `i`-th submitted input (after trimming) contain `calvin`? -/
def calvinAt (inputs : List String) (i : Nat) : Bool :=
  containsCalvin (jsTrim (inputs.getD i ""))

/-- History invariant tying the session flags to the inputs processed so
far: a pending password challenge requires an earlier input containing
`calvin`, and an unlocked creator mode requires such an input followed by
a later input trimming to exactly `1945`. -/
def CreatorInv (done : List String) (st : CState) : Prop :=
  (st.awaitingPassword = true → ∃ i, i < done.length ∧ calvinAt done i = true) ∧
  (st.hiddenFunctionUnlocked = true → ∃ i j, i < j ∧ j < done.length ∧
    calvinAt done i = true ∧ jsTrim (done.getD j "") = "1945")

/-- After a failed password attempt the session is permanently locked:
`isCalvinRecognized` stays true, and the password flag and unlocked flag
stay false. -/
def LockedOut (st : CState) : Prop :=
  st.isCalvinRecognized = true ∧ st.awaitingPassword = false ∧
  st.hiddenFunctionUnlocked = false

/-- Reachability invariant: whenever the password flag is set, the name has
been recognized and the hidden functions are still locked; and unlocking
implies recognition. -/
def PwInv (st : CState) : Prop :=
  (st.hiddenFunctionUnlocked = true → st.isCalvinRecognized = true) ∧
  (st.awaitingPassword = true → st.isCalvinRecognized = true ∧
    st.hiddenFunctionUnlocked = false)

/-- The first branch gate that fires in the local-storage chain. -/
def gateFirst13 (inp : String) : Option ToolIdx := toolOrder.find? (v13Gate inp)

/-- The decimal digit character of `d` (values above 9 never occur under
the hypotheses used below). -/
def digitChar : Nat → Char
  | 0 => '0'
  | 1 => '1'
  | 2 => '2'
  | 3 => '3'
  | 4 => '4'
  | 5 => '5'
  | 6 => '6'
  | 7 => '7'
  | 8 => '8'
  | 9 => '9'
  | _ + 10 => '0'

/-- Value of a digit list as a natural number. -/
def natValL (ds : List Nat) : Nat := ds.foldl (fun a d => 10 * a + d) 0

/-- The query `what is A + B * C` built from three digit strings. -/
def mkABCQuery (dA dB dC : List Nat) : String :=
  String.mk ("what is ".data ++
    (dA.map digitChar ++ (" + ".data ++
      (dB.map digitChar ++ (" * ".data ++ dC.map digitChar)))))

/-- A well-formed operator/operand tail, as the tokenizer produces for an
alternating `literal op literal …` expression: each pair contributes the
operator's one-character string and the operand's number. -/
def flatOps (ops : List (Char × Frac)) : List JVal :=
  ops.flatMap (fun p => [JVal.str (String.singleton p.1), JVal.num (JNum.val p.2)])

/-!
## Theorems for the claims
-/

/-- **C10.**  The system-log list never exceeds 50 entries: `addLog`
appends one entry and truncates to the most recent 50 (the same code in
both revisions), so its result always has at most 50 entries — exactly
`min (previous length + 1) 50` — and is a suffix of the appended list. -/
theorem claim10_log_bound (logs : List LogEntry) (now : Nat) (message logType : String) :
    (addLog logs now message logType).length = min (logs.length + 1) 50 ∧
    (addLog logs now message logType).length ≤ 50 ∧
    ∃ dropped, dropped ++ addLog logs now message logType
      = logs ++ [⟨now, message, logType⟩] := by
  refine ⟨?_, ?_, ?_⟩
  · simp [addLog, sliceLast50]
    omega
  · simp [addLog, sliceLast50]
    omega
  · refine ⟨(logs ++ [LogEntry.mk now message logType]).take
      ((logs ++ [LogEntry.mk now message logType]).length - 50), ?_⟩
    simp [addLog, sliceLast50]

/-- **C5, counterexample.**  The claim asserts every persisted chat-message
record has a `timestamp` field.  In the local-storage revision the records
written to `localStorage['chatHistory']` carry `sender`, `text` and
`localTimestamp` only: after submitting `"hi"` from the initial state, the
stored user record has no field named `timestamp`. -/
theorem claim5_cex_no_timestamp_field :
    (handleSend13 env13C ⟨cInit, [], none⟩ "hi").1.storage
      = some [userMessage13 "hi" 0, anyaMessage13 "AI-RESPONSE" 0] ∧
    hasField (userMessage13 "hi" 0) "timestamp" = false ∧
    hasField (anyaMessage13 "AI-RESPONSE" 0) "timestamp" = false := by
  refine ⟨by decide, by decide, by decide⟩

/-- **C5, amended.**  Every chat-message record persisted by the Firestore
revision (the `handleSendMessage` pair and the `processVoiceCommand` pair)
has `sender`, `text` and `timestamp` fields; every record persisted by the
local-storage revision has `sender`, `text` and `localTimestamp` fields
(its timestamp field is named `localTimestamp`, not `timestamp`). -/
theorem claim5_record_fields (text : String) (now : Nat) :
    (hasField (newUserMessageA text now) "sender" = true ∧
     hasField (newUserMessageA text now) "text" = true ∧
     hasField (newUserMessageA text now) "timestamp" = true) ∧
    (hasField (modelMessageA text now) "sender" = true ∧
     hasField (modelMessageA text now) "text" = true ∧
     hasField (modelMessageA text now) "timestamp" = true) ∧
    (hasField (voiceUserMessageA text now) "sender" = true ∧
     hasField (voiceUserMessageA text now) "text" = true ∧
     hasField (voiceUserMessageA text now) "timestamp" = true) ∧
    (hasField (voiceModelMessageA text now) "sender" = true ∧
     hasField (voiceModelMessageA text now) "text" = true ∧
     hasField (voiceModelMessageA text now) "timestamp" = true) ∧
    (hasField (userMessage13 text now) "sender" = true ∧
     hasField (userMessage13 text now) "text" = true ∧
     hasField (userMessage13 text now) "localTimestamp" = true) ∧
    (hasField (anyaMessage13 text now) "sender" = true ∧
     hasField (anyaMessage13 text now) "text" = true ∧
     hasField (anyaMessage13 text now) "localTimestamp" = true) := by
  repeat' constructor

/-- A filtered `Nodup` list whose members satisfying the predicate are all
equal to one fixed value has at most one element. -/
theorem filter_len_le_one {l : List Nat} {p : Nat → Bool} {x : Nat}
    (hnd : l.Nodup) (hx : ∀ a ∈ l, p a = true → a = x) :
    (l.filter p).length ≤ 1 := by
  induction l with
  | nil => simp
  | cons a t ih =>
    rw [List.filter_cons]
    by_cases hpa : p a = true
    · have hax : a = x := hx a (by simp) hpa
      have hemp : t.filter p = [] := by
        rw [List.filter_eq_nil_iff]
        intro b hb hpb
        have hbx : b = x := hx b (by simp [hb]) hpb
        exact (List.nodup_cons.mp hnd).1 (hax ▸ hbx ▸ hb)
      simp [hpa, hemp]
    · simp only [hpa, Bool.false_eq_true, if_false]
      exact ih (List.nodup_cons.mp hnd).2 (fun b hb hpb => hx b (by simp [hb]) hpb)

/-- The initial cancellation state satisfies the invariant. -/
theorem aiInv_init : AIInv aiInit := by
  refine ⟨?_, ?_, ?_⟩ <;> simp [AIInv, aiInit]

/-- The invariant is preserved by every event. -/
theorem aiInv_step (s : AIConc) (e : AIEvent) (h : AIInv s) : AIInv (aiStep s e) := by
  obtain ⟨hb, hnd, href⟩ := h
  cases e with
  | settle i => exact ⟨hb, hnd, href⟩
  | invoke =>
    refine ⟨?_, ?_, ?_⟩
    · intro i hi
      simp only [aiStep, aiInvoke, List.mem_cons] at hi
      rcases hi with rfl | hi
      · simp [aiStep, aiInvoke]
      · simp only [aiStep, aiInvoke]
        exact Nat.lt_succ_of_lt (hb i hi)
    · simp only [aiStep, aiInvoke, List.nodup_cons]
      exact ⟨fun hmem => absurd (hb _ hmem) (by omega), hnd⟩
    · intro i hi hab
      simp only [aiStep, aiInvoke, List.mem_cons] at hi hab ⊢
      rcases hi with rfl | hi
      · rfl
      · exfalso
        cases hr : s.ref with
        | none =>
          rw [hr] at hab
          exact absurd (href i hi hab) (by rw [hr]; intro hc; cases hc)
        | some j =>
          rw [hr] at hab
          simp only [List.mem_cons, not_or] at hab
          have hj := href i hi hab.2
          rw [hr] at hj
          exact hab.1 (by injection hj with hji; exact hji.symm)

/-- The invariant holds after any event sequence. -/
theorem aiInv_run (events : List AIEvent) : AIInv (runAI events) := by
  have h : ∀ (es : List AIEvent) (s : AIConc), AIInv s → AIInv (es.foldl aiStep s) := by
    intro es
    induction es with
    | nil => intro s hs; exact hs
    | cons e rest ih => intro s hs; exact ih _ (aiInv_step s e hs)
  exact h events aiInit aiInv_init

/-- At most one request is outstanding in any state satisfying the
invariant. -/
theorem aiOutstanding_le_one (s : AIConc) (h : AIInv s) :
    (aiOutstanding s).length ≤ 1 := by
  obtain ⟨_, hnd, href⟩ := h
  refine filter_len_le_one (x := match s.ref with | some i => i | none => 0) hnd ?_
  intro a ha hpa
  simp only [Bool.and_eq_true, Bool.not_eq_true'] at hpa
  have hnab : a ∉ s.aborted := by
    intro hmem
    rw [decide_eq_false_iff_not] at hpa
    · exact hpa.1 hmem
  have := href a ha hnab
  rw [this]

/-- **C7.**  The `abortControllerRef` discipline of `getAIResponse`: (1)
after any sequence of invocations and settlements, at most one issued
request is outstanding (not aborted, not settled); (2) when a previous
controller is still installed, an invocation aborts it strictly before
issuing the new request; (3) a call whose fetch is aborted resolves to the
string `"Request cancelled."` instead of raising. -/
theorem claim7_single_flight_cancellation :
    (∀ events : List AIEvent, (aiOutstanding (runAI events)).length ≤ 1) ∧
    (∀ (s : AIConc) (i : Nat), s.ref = some i →
      aiInvokeActions s = [.abortReq i, .issueReq s.nextId]) ∧
    aiResponseText .abortErr = "Request cancelled." := by
  refine ⟨?_, ?_, rfl⟩
  · intro events
    exact aiOutstanding_le_one _ (aiInv_run events)
  · intro s i hr
    simp [aiInvokeActions, hr]

/-- Witness for C7: two back-to-back invocations with no settlement leave
at most one request outstanding, and a state holding controller 3 aborts
it before issuing request 5. -/
theorem claim7_witness :
    (aiOutstanding (runAI [.invoke, .invoke])).length ≤ 1 ∧
    aiInvokeActions ⟨5, some 3, [3], [], []⟩ = [.abortReq 3, .issueReq 5] := by
  exact ⟨claim7_single_flight_cancellation.1 [.invoke, .invoke],
    claim7_single_flight_cancellation.2.1 ⟨5, some 3, [3], [], []⟩ 3 rfl⟩

/-- **C8.**  `getWeatherReport` maps every failure to a user-facing message
string and never lets an exception escape: the offline guard, a thrown
geocoding fetch, a failed or empty geocoding response, a thrown weather
fetch, and a failed weather response each produce their fixed message; and
when the chain's weather check matches, the turn's response is exactly the
string `getWeatherReport` returned. -/
theorem claim8_weather_error_handling :
    (∀ (env : WeatherEnv) (loc : String),
      getWeatherReport "offline" env loc = weatherOfflineMsg) ∧
    (∀ (conn : String) (env : WeatherEnv) (loc m : String), conn ≠ "offline" →
      env.geo = .throws m → getWeatherReport conn env loc = weatherNetworkMsg) ∧
    (∀ (conn : String) (env : WeatherEnv) (loc : String) (ok : Bool) (g : GeoData),
      conn ≠ "offline" → env.geo = .resp ok g →
      (ok = false ∨ (g.results.getD []).isEmpty = true) →
      getWeatherReport conn env loc = weatherNotFoundMsg loc) ∧
    (∀ (conn : String) (env : WeatherEnv) (loc : String) (g : GeoData)
       (place : GeoPlace) (rest : List GeoPlace) (m : String),
      conn ≠ "offline" → env.geo = .resp true g → g.results = some (place :: rest) →
      env.wx = .throws m → getWeatherReport conn env loc = weatherNetworkMsg) ∧
    (∀ (conn : String) (env : WeatherEnv) (loc : String) (g : GeoData)
       (place : GeoPlace) (rest : List GeoPlace) (wok : Bool) (w : WxData),
      conn ≠ "offline" → env.geo = .resp true g → g.results = some (place :: rest) →
      env.wx = .resp wok w → (wok = false ∨ w.current = none) →
      getWeatherReport conn env loc = weatherApiErrMsg place.name place.country w.reason) ∧
    (∀ (envA : EnvA) (hist : List FDoc) (inp conn : String) (wenv : WeatherEnv) g,
      envA.weather = (fun l => getWeatherReport conn wenv l) →
      reFind weatherREA (jsToLower inp).data = some g →
      (toolChainAnya envA hist inp).1 = getWeatherReport conn wenv (capTrim g.2 0)) := by
  refine ⟨?_, ?_, ?_, ?_, ?_, ?_⟩
  · intro env loc
    simp [getWeatherReport]
  · intro conn env loc m hconn hgeo
    simp [getWeatherReport, getWeatherBody, hconn, hgeo]
  · intro conn env loc ok g hconn hgeo hcase
    rcases hcase with rfl | hempty
    · simp [getWeatherReport, getWeatherBody, hconn, hgeo]
    · simp [getWeatherReport, getWeatherBody, hconn, hgeo, hempty]
  · intro conn env loc g place rest m hconn hgeo hres hwx
    simp [getWeatherReport, getWeatherBody, hconn, hgeo, hres, hwx]
  · intro conn env loc g place rest wok w hconn hgeo hres hwx hcase
    rcases hcase with rfl | hnone
    · cases hcur : w.current with
      | none => simp [getWeatherReport, getWeatherBody, hconn, hgeo, hres, hwx, hcur]
      | some cur => simp [getWeatherReport, getWeatherBody, hconn, hgeo, hres, hwx, hcur]
    · simp [getWeatherReport, getWeatherBody, hconn, hgeo, hres, hwx, hnone]
  · intro envA hist inp conn wenv g hw hre
    have hb : anyaBranch envA inp .weather
        = some (getWeatherReport conn wenv (capTrim g.2 0)) := by
      simp [anyaBranch, hre, hw]
    simp [toolChainAnya, hb]

/-- Witness for C8: the offline guard and a thrown geocoding fetch each
produce their message, and a turn asking for the weather in Paris with an
offline environment responds with the offline message. -/
theorem claim8_witness :
    getWeatherReport "offline" ⟨.throws "boom", .throws "boom"⟩ "paris"
      = weatherOfflineMsg ∧
    getWeatherReport "online" ⟨.throws "boom", .throws "boom"⟩ "paris"
      = weatherNetworkMsg ∧
    (toolChainAnya
      { envA0 with weather :=
          fun l => getWeatherReport "offline" ⟨.throws "boom", .throws "boom"⟩ l }
      [] "weather in paris").1 = weatherOfflineMsg := by
  refine ⟨claim8_weather_error_handling.1 _ _,
    claim8_weather_error_handling.2.1 "online" _ _ "boom" (by decide) rfl, ?_⟩
  have h := claim8_weather_error_handling.2.2.2.2.2
    { envA0 with weather :=
        fun l => getWeatherReport "offline" ⟨.throws "boom", .throws "boom"⟩ l }
    [] "weather in paris" "offline" ⟨.throws "boom", .throws "boom"⟩
    (0, ["paris".data]) rfl (by decide)
  rw [h]
  exact claim8_weather_error_handling.1 _ _

/-- A witness index survives appending another input. -/
theorem calvinAt_append (done : List String) (inp : String) (i : Nat)
    (h : i < done.length) : calvinAt (done ++ [inp]) i = calvinAt done i := by
  unfold calvinAt
  rw [List.getD_append _ _ _ _ h]

/-- The appended input is read back at index `done.length`. -/
theorem getD_snoc_self (done : List String) (inp : String) :
    (done ++ [inp]).getD done.length "" = inp := by
  rw [List.getD_append_right _ _ _ _ (Nat.le_refl _)]
  simp

/-- One submitted turn preserves the history invariant. -/
theorem creatorInv_step (done : List String) (st : CState) (inp : String)
    (h : CreatorInv done st) : CreatorInv (done ++ [inp]) (creatorTurn st inp) := by
  obtain ⟨hpw, hun⟩ := h
  have carry_pw : (∃ i, i < done.length ∧ calvinAt done i = true) →
      ∃ i, i < (done ++ [inp]).length ∧ calvinAt (done ++ [inp]) i = true := by
    rintro ⟨i, hi, hc⟩
    exact ⟨i, by simp; omega, by rw [calvinAt_append _ _ _ hi]; exact hc⟩
  have carry_un : (∃ i j, i < j ∧ j < done.length ∧ calvinAt done i = true ∧
        jsTrim (done.getD j "") = "1945") →
      ∃ i j, i < j ∧ j < (done ++ [inp]).length ∧ calvinAt (done ++ [inp]) i = true ∧
        jsTrim ((done ++ [inp]).getD j "") = "1945" := by
    rintro ⟨i, j, hij, hj, hc, hp⟩
    refine ⟨i, j, hij, by simp; omega, ?_, ?_⟩
    · rw [calvinAt_append _ _ _ (Nat.lt_trans hij hj)]; exact hc
    · rw [List.getD_append _ _ _ _ hj]; exact hp
  unfold creatorTurn
  by_cases ht : jsTrim inp = ""
  · simp only [ht, if_pos rfl]
    exact ⟨fun ha => carry_pw (hpw ha), fun hu => carry_un (hun hu)⟩
  · rw [if_neg ht]
    unfold creatorUpdate
    split_ifs with h1 h2 h3 h4 h5
    · -- name recognition: sets the pending-password flag
      refine ⟨fun _ => ⟨done.length, by simp, ?_⟩, fun hu => carry_un (hun hu)⟩
      simp only [calvinAt, getD_snoc_self]
      exact (Bool.and_eq_true ..).mp h1 |>.1
    · -- password accepted: unlocks
      refine ⟨by simp, fun _ => ?_⟩
      obtain ⟨hawait, hpwd⟩ := (Bool.and_eq_true ..).mp h2
      obtain ⟨i, hi, hc⟩ := hpw hawait
      refine ⟨i, done.length, hi, by simp, ?_, ?_⟩
      · rw [calvinAt_append _ _ _ hi]; exact hc
      · rw [getD_snoc_self]
        exact of_decide_eq_true hpwd
    · -- wrong password: clears the flag
      exact ⟨by simp, fun hu => carry_un (hun hu)⟩
    · -- good-bye: everything cleared
      exact ⟨by simp, by simp⟩
    · -- open voice command: flags unchanged
      exact ⟨fun ha => carry_pw (hpw ha), fun hu => carry_un (hun hu)⟩
    · exact ⟨fun ha => carry_pw (hpw ha), fun hu => carry_un (hun hu)⟩

/-- The history invariant holds along any run. -/
theorem creatorInv_run (inputs : List String) :
    ∀ (done : List String) (st : CState), CreatorInv done st →
      CreatorInv (done ++ inputs) (runCreator st inputs) := by
  induction inputs with
  | nil => intro done st h; simpa using h
  | cons inp rest ih =>
    intro done st h
    have h2 := ih (done ++ [inp]) (creatorTurn st inp) (creatorInv_step done st inp h)
    simpa [List.append_assoc] using h2

/-- **C3.**  (1) The `good-bye` deactivation branch and the `open voice
command` arming branch fire only in states with `hiddenFunctionUnlocked =
true`; (2) starting from the initial session state, `hiddenFunctionUnlocked`
is true only if some processed input contained `calvin` and a strictly
later processed input trimmed to exactly `1945`. -/
theorem claim3_creator_gating :
    (∀ (st : CState) (inp : String),
      ((creatorUpdate st inp).2 = some CBranch.goodbye ∨
       (creatorUpdate st inp).2 = some CBranch.openVoice) →
      st.hiddenFunctionUnlocked = true) ∧
    (∀ inputs : List String,
      (runCreator cInit inputs).hiddenFunctionUnlocked = true →
      ∃ i j, i < j ∧ j < inputs.length ∧
        containsCalvin (jsTrim (inputs.getD i "")) = true ∧
        jsTrim (inputs.getD j "") = "1945") := by
  constructor
  · intro st inp h
    unfold creatorUpdate at h
    split_ifs at h with h1 h2 h3 h4 h5
    · simp at h
    · simp at h
    · simp at h
    · exact ((Bool.and_eq_true ..).mp h4).1
    · exact ((Bool.and_eq_true ..).mp h5).1
    · simp at h
  · intro inputs hu
    have hinit : CreatorInv [] cInit := by
      constructor <;> intro h <;> simp [cInit] at h
    have hrun := creatorInv_run inputs [] cInit hinit
    simp only [List.nil_append] at hrun
    exact hrun.2 hu

/-- Witness for C3: the branch-gating part at a concrete unlocked state
with input `good-bye`, and the trace part on the two-turn session
`["i am calvin", "1945"]`. -/
theorem claim3_witness :
    (⟨true, false, true, false⟩ : CState).hiddenFunctionUnlocked = true ∧
    ∃ i j, i < j ∧ j < 2 ∧
      containsCalvin (jsTrim ((["i am calvin", "1945"] : List String).getD i "")) = true ∧
      jsTrim ((["i am calvin", "1945"] : List String).getD j "") = "1945" := by
  constructor
  · exact claim3_creator_gating.1 ⟨true, false, true, false⟩ "good-bye"
      (Or.inl (by decide))
  · exact claim3_creator_gating.2 ["i am calvin", "1945"] (by decide)

/-- No branch can fire out of a locked-out state: the name-recognition
branch needs `isCalvinRecognized` to be false, the password branches need
the pending flag, and the creator branches need the unlocked flag. -/
theorem lockedOut_step (st : CState) (inp : String) (h : LockedOut st) :
    LockedOut (creatorTurn st inp) := by
  obtain ⟨hc, ha, hu⟩ := h
  unfold creatorTurn
  by_cases ht : jsTrim inp = ""
  · rw [if_pos ht]; exact ⟨hc, ha, hu⟩
  · rw [if_neg ht]
    unfold creatorUpdate
    split_ifs with h1 h2 h3 h4 h5
    · rw [hc] at h1; simp at h1
    · rw [ha] at h2; simp at h2
    · rw [ha] at h3; simp at h3
    · rw [hu] at h4; simp at h4
    · rw [hu] at h5; simp at h5
    · exact ⟨hc, ha, hu⟩

/-- Locked-out states stay locked out along any run. -/
theorem lockedOut_run (inputs : List String) :
    ∀ st : CState, LockedOut st → LockedOut (runCreator st inputs) := by
  induction inputs with
  | nil => intro st h; exact h
  | cons inp rest ih => intro st h; exact ih _ (lockedOut_step st inp h)

/-- `PwInv` is preserved by every submitted turn. -/
theorem pwInv_step (st : CState) (inp : String) (h : PwInv st) :
    PwInv (creatorTurn st inp) := by
  obtain ⟨hui, hai⟩ := h
  unfold creatorTurn
  by_cases ht : jsTrim inp = ""
  · rw [if_pos ht]; exact ⟨hui, hai⟩
  · rw [if_neg ht]
    unfold creatorUpdate
    split_ifs with h1 h2 h3 h4 h5
    · -- name recognition: requires ¬recognized, hence (contrapositive) locked
      obtain ⟨-, hnr⟩ := (Bool.and_eq_true ..).mp h1
      refine ⟨fun hu => rfl, fun _ => ⟨rfl, ?_⟩⟩
      cases hrec : st.hiddenFunctionUnlocked with
      | false => rfl
      | true => rw [hui hrec] at hnr; simp at hnr
    · obtain ⟨hawait, -⟩ := (Bool.and_eq_true ..).mp h2
      exact ⟨fun _ => (hai hawait).1, by simp⟩
    · exact ⟨fun hu => hui hu, by simp⟩
    · exact ⟨by simp, by simp⟩
    · exact ⟨fun hu => hui hu, fun ha => hai ha⟩
    · exact ⟨fun hu => hui hu, fun ha => hai ha⟩

/-- `PwInv` holds in every state reachable from the initial state. -/
theorem pwInv_run (inputs : List String) :
    ∀ st : CState, PwInv st → PwInv (runCreator st inputs) := by
  induction inputs with
  | nil => intro st h; exact h
  | cons inp rest ih => intro st h; exact ih _ (pwInv_step st inp h)

/-- Splitting a run. -/
theorem runCreator_append (l1 l2 : List String) :
    ∀ st : CState, runCreator st (l1 ++ l2) = runCreator (runCreator st l1) l2 := by
  induction l1 with
  | nil => intro st; rfl
  | cons inp rest ih => intro st; exact ih (creatorTurn st inp)

/-- **C4.**  If a session reaches a state awaiting the password and then a
non-empty submitted input other than `1945` is processed, the hidden
functions can never unlock in any later turn of that session: the
wrong-password branch clears only the pending flag, leaving the name
recognized, and no branch can re-arm the challenge. -/
theorem claim4_failed_password_locks_out (pre : List String) (inp : String)
    (post : List String)
    (hawait : (runCreator cInit pre).awaitingPassword = true)
    (hne : jsTrim inp ≠ "1945") (hne2 : jsTrim inp ≠ "") :
    (runCreator cInit (pre ++ inp :: post)).hiddenFunctionUnlocked = false := by
  have hpre : PwInv (runCreator cInit pre) :=
    pwInv_run pre cInit ⟨by intro h; simp [cInit] at h, by intro h; simp [cInit] at h⟩
  obtain ⟨hcal, hunl⟩ := hpre.2 hawait
  have hlock : LockedOut (creatorTurn (runCreator cInit pre) inp) := by
    unfold creatorTurn
    rw [if_neg hne2]
    unfold creatorUpdate
    split_ifs with h1 h2 h3 h4 h5
    · rw [hcal] at h1; simp at h1
    · obtain ⟨-, hpwd⟩ := (Bool.and_eq_true ..).mp h2
      exact absurd (of_decide_eq_true hpwd) hne
    · exact ⟨hcal, rfl, hunl⟩
    · rw [hunl] at h4; simp at h4
    · rw [hunl] at h5; simp at h5
    · -- unreachable: the wrong-password condition holds
      exfalso
      apply h3
      rw [hawait]
      simp [hne]
  have := lockedOut_run post _ hlock
  rw [runCreator_append pre (inp :: post) cInit]
  exact this.2.2

/-- Witness for C4: after `calvin here` arms the challenge, answering
`0000` locks the session; a later correct `1945` no longer unlocks. -/
theorem claim4_witness :
    (runCreator cInit (["calvin here"] ++ "0000" :: ["1945"])).hiddenFunctionUnlocked
      = false := by
  exact claim4_failed_password_locks_out ["calvin here"] "0000" ["1945"]
    (by decide) (by decide) (by decide)

/-- The incremental `toolResponse` threading of the Firestore chain
computes exactly the first-match-wins response. -/
theorem chainA_first (env : EnvA) (hist : List FDoc) (inp : String) :
    (toolChainAnya env hist inp).1 =
      (match firstToolA env inp with
       | some p => p.2
       | none => env.ai inp hist) := by
  unfold toolChainAnya firstToolA toolOrder
  cases h0 : anyaBranch env inp .weather <;>
    cases h1 : anyaBranch env inp .calc <;>
    cases h2 : anyaBranch env inp .translate <;>
    cases h3 : anyaBranch env inp .news <;>
    cases h4 : anyaBranch env inp .social <;>
    cases h5 : anyaBranch env inp .internet <;>
    simp [List.findSome?_cons, h0, h1, h2, h3, h4, h5]

/-- The Firestore chain calls `getAIResponse` exactly when no tool check
fires. -/
theorem chainA_ai_mem (env : EnvA) (hist : List FDoc) (inp : String) :
    (CallEvt.ai ∈ (toolChainAnya env hist inp).2) ↔ firstToolA env inp = none := by
  unfold toolChainAnya firstToolA toolOrder
  cases h0 : anyaBranch env inp .weather <;>
    cases h1 : anyaBranch env inp .calc <;>
    cases h2 : anyaBranch env inp .translate <;>
    cases h3 : anyaBranch env inp .news <;>
    cases h4 : anyaBranch env inp .social <;>
    cases h5 : anyaBranch env inp .internet <;>
    simp [List.findSome?_cons, h0, h1, h2, h3, h4, h5]

/-- Once a tool has produced the response, no tool later in the check
order is invoked by the Firestore chain. -/
theorem chainA_calls_bound (env : EnvA) (hist : List FDoc) (inp : String)
    (k : ToolIdx) (r : String) (h : firstToolA env inp = some (k, r)) :
    ∀ t, CallEvt.tool t ∈ (toolChainAnya env hist inp).2 → toolPos t ≤ toolPos k := by
  unfold firstToolA toolOrder at h
  unfold toolChainAnya
  cases h0 : anyaBranch env inp .weather <;>
    cases h1 : anyaBranch env inp .calc <;>
    cases h2 : anyaBranch env inp .translate <;>
    cases h3 : anyaBranch env inp .news <;>
    cases h4 : anyaBranch env inp .social <;>
    cases h5 : anyaBranch env inp .internet <;>
    simp [List.findSome?_cons, h0, h1, h2, h3, h4, h5] at h <;>
    obtain ⟨hk, -⟩ := h <;>
    subst hk <;>
    intro t ht <;>
    simp at ht <;>
    rcases ht with rfl | rfl <;> decide

/-- If some tool check fires, the first firing check is at most as late in
the order. -/
theorem firstToolA_min (env : EnvA) (inp : String) (k : ToolIdx) (r : String)
    (i : ToolIdx) (h : firstToolA env inp = some (k, r))
    (hi : (anyaBranch env inp i).isSome = true) : toolPos k ≤ toolPos i := by
  unfold firstToolA toolOrder at h
  cases h0 : anyaBranch env inp .weather <;>
    cases h1 : anyaBranch env inp .calc <;>
    cases h2 : anyaBranch env inp .translate <;>
    cases h3 : anyaBranch env inp .news <;>
    cases h4 : anyaBranch env inp .social <;>
    cases h5 : anyaBranch env inp .internet <;>
    simp [List.findSome?_cons, h0, h1, h2, h3, h4, h5] at h <;>
    obtain ⟨hk, -⟩ := h <;>
    subst hk <;>
    cases i <;>
    simp_all [toolPos]

/-- No tool check firing means `firstToolA` is `none` and conversely. -/
theorem firstToolA_none_iff (env : EnvA) (inp : String) :
    firstToolA env inp = none ↔ ∀ t, anyaBranch env inp t = none := by
  unfold firstToolA
  rw [List.findSome?_eq_none_iff]
  constructor
  · intro h t
    have hmem : t ∈ toolOrder := by cases t <;> simp [toolOrder]
    have := h t hmem
    simpa using this
  · intro h t _
    simp [h t]

/-- The local-storage chain's `toolResponse` is the first firing gate's
body (and `none` when no gate fires). -/
theorem toolPhase13_resp (env : Env13) (inp : String) :
    (toolPhase13 env inp).1 = (gateFirst13 inp).bind (v13Body env inp) := by
  unfold toolPhase13 gateFirst13 toolOrder
  by_cases g0 : v13Gate inp .weather = true <;>
    by_cases g1 : v13Gate inp .calc = true <;>
    by_cases g2 : v13Gate inp .translate = true <;>
    by_cases g3 : v13Gate inp .news = true <;>
    by_cases g4 : v13Gate inp .social = true <;>
    by_cases g5 : v13Gate inp .internet = true <;>
    simp [List.find?, g0, g1, g2, g3, g4, g5]

/-- At most one tool branch runs per turn in the local-storage chain. -/
theorem toolPhase13_len (env : Env13) (inp : String) :
    (toolPhase13 env inp).2.length ≤ 1 := by
  unfold toolPhase13
  by_cases g0 : v13Gate inp .weather = true <;>
    by_cases g1 : v13Gate inp .calc = true <;>
    by_cases g2 : v13Gate inp .translate = true <;>
    by_cases g3 : v13Gate inp .news = true <;>
    by_cases g4 : v13Gate inp .social = true <;>
    by_cases g5 : v13Gate inp .internet = true <;>
    simp [g0, g1, g2, g3, g4, g5] <;>
    split <;> simp

/-- The local-storage chain never records an AI call in its tool phase. -/
theorem toolPhase13_no_ai (env : Env13) (inp : String) :
    CallEvt.ai ∉ (toolPhase13 env inp).2 := by
  unfold toolPhase13
  by_cases g0 : v13Gate inp .weather = true <;>
    by_cases g1 : v13Gate inp .calc = true <;>
    by_cases g2 : v13Gate inp .translate = true <;>
    by_cases g3 : v13Gate inp .news = true <;>
    by_cases g4 : v13Gate inp .social = true <;>
    by_cases g5 : v13Gate inp .internet = true <;>
    simp [g0, g1, g2, g3, g4, g5]

/-- **C1, counterexample.**  In the local-storage revision the utterance
`calculate news about tech` matches the news tool pattern (its gate fires
and the tool would produce a response), yet because the earlier
calculation gate (`startsWith('calculate')`) fires first and its tool
yields `null`, the `else if` chain stops and the turn falls through to
`getAIResponse`: the response is the model's and the AI call is made. -/
theorem claim1_cex_gated_fallthrough :
    v13MatchesSomeTool env13C "calculate news about tech" = true ∧
    v13Produces env13C "calculate news about tech" .news
      = some getNewsHeadlines13 ∧
    (handleSend13 env13C ⟨cInit, [], none⟩ "calculate news about tech").2
      = some ("AI-RESPONSE", [.tool .calc, .ai]) ∧
    CallEvt.ai ∈ [CallEvt.tool .calc, CallEvt.ai] := by
  refine ⟨by decide, by decide, by decide, by decide⟩

/-- **C1, amended.**  Routing with the creator branches quiescent.  In the
Firestore revision the claim holds as stated: if no tool check fires the
turn defers to `getAIResponse` (on the stale chat context), and if any
check fires the response is the first firing tool's result and
`getAIResponse` is not called.  In the local-storage revision the same
holds with respect to the `else if` branch gates: only the first firing
gate's branch runs, the response is its tool result when it produces one,
and otherwise — including when a gated branch produces nothing — the turn
defers to `getAIResponse` on the updated chat. -/
theorem claim1_tool_or_ai_routing :
    (∀ (env : EnvA) (st : AnyaSt) (raw : String),
      jsTrim raw ≠ "" → (creatorUpdate st.c (jsTrim raw)).2 = none →
      ∃ rc, (handleSendAnya env st raw).2 = some rc ∧
        (firstToolA env (jsTrim raw) = none →
          rc.1 = env.ai (jsTrim raw) st.chatHistory ∧ CallEvt.ai ∈ rc.2) ∧
        (∀ t r, firstToolA env (jsTrim raw) = some (t, r) →
          rc.1 = r ∧ CallEvt.ai ∉ rc.2)) ∧
    (∀ (env : Env13) (st : V13St) (raw : String),
      jsTrim raw ≠ "" → (creatorUpdate st.c (jsTrim raw)).2 = none →
      ∃ rc, (handleSend13 env st raw).2 = some rc ∧
        ((gateFirst13 (jsTrim raw)).bind (v13Body env (jsTrim raw)) = none →
          rc.1 = env.ai (st.chatHistory ++ [userMessage13 (jsTrim raw) env.now]) ∧
          CallEvt.ai ∈ rc.2) ∧
        (∀ r, (gateFirst13 (jsTrim raw)).bind (v13Body env (jsTrim raw)) = some r →
          rc.1 = r ∧ CallEvt.ai ∉ rc.2)) := by
  constructor
  · intro env st raw hne hcr
    unfold handleSendAnya
    rw [if_neg hne]
    refine ⟨_, rfl, ?_, ?_⟩
    · intro hnone
      simp only [hcr]
      constructor
      · rw [chainA_first, hnone]
      · exact (chainA_ai_mem env st.chatHistory (jsTrim raw)).mpr hnone
    · intro t r hsome
      simp only [hcr]
      constructor
      · rw [chainA_first, hsome]
      · intro hmem
        rw [chainA_ai_mem env st.chatHistory (jsTrim raw)] at hmem
        rw [hmem] at hsome
        cases hsome
  · intro env st raw hne hcr
    unfold handleSend13
    rw [if_neg hne]
    refine ⟨_, rfl, ?_, ?_⟩
    · intro hnone
      simp only [hcr]
      have hresp := toolPhase13_resp env (jsTrim raw)
      rw [hnone] at hresp
      rw [hresp]
      exact ⟨rfl, by simp⟩
    · intro r hsome
      simp only [hcr]
      have hresp := toolPhase13_resp env (jsTrim raw)
      rw [hsome] at hresp
      rw [hresp]
      exact ⟨rfl, toolPhase13_no_ai env (jsTrim raw)⟩

/-- Witness for C1: a weather request routes to the weather tool without
an AI call in the Firestore revision, and a small-talk turn routes to the
AI in the local-storage revision. -/
theorem claim1_witness :
    (∃ rc, (handleSendAnya envA0 ⟨cInit, [], []⟩ "weather in paris").2 = some rc ∧
      (firstToolA envA0 "weather in paris" = none →
        rc.1 = envA0.ai "weather in paris" [] ∧ CallEvt.ai ∈ rc.2) ∧
      (∀ t r, firstToolA envA0 "weather in paris" = some (t, r) →
        rc.1 = r ∧ CallEvt.ai ∉ rc.2)) ∧
    (∃ rc, (handleSend13 env13C ⟨cInit, [], none⟩ "nice to meet you").2 = some rc ∧
      ((gateFirst13 "nice to meet you").bind (v13Body env13C "nice to meet you") = none →
        rc.1 = env13C.ai [userMessage13 "nice to meet you" 0] ∧ CallEvt.ai ∈ rc.2) ∧
      (∀ r, (gateFirst13 "nice to meet you").bind (v13Body env13C "nice to meet you") = some r →
        rc.1 = r ∧ CallEvt.ai ∉ rc.2)) := by
  constructor
  · exact claim1_tool_or_ai_routing.1 envA0 ⟨cInit, [], []⟩ "weather in paris"
      (by decide) (by decide)
  · exact claim1_tool_or_ai_routing.2 env13C ⟨cInit, [], none⟩ "nice to meet you"
      (by decide) (by decide)

/-- **C2, counterexample.**  In the local-storage revision the utterance
`calculate news about search for bob` matches two tool patterns — news
(position 3) and internet search (position 5) — yet the response is
neither: the earlier calculation gate fires with a `null` result, the
`else if` chain stops, and the AI fallback answers instead of the
earliest matching tool. -/
theorem claim2_cex_not_first_match :
    (v13Produces env13C "calculate news about search for bob" .news).isSome = true ∧
    (v13Produces env13C "calculate news about search for bob" .internet).isSome = true ∧
    toolPos .news < toolPos .internet ∧
    (handleSend13 env13C ⟨cInit, [], none⟩ "calculate news about search for bob").2
      = some ("AI-RESPONSE", [.tool .calc, .ai]) ∧
    ("AI-RESPONSE" : String) ≠ getNewsHeadlines13 := by
  refine ⟨by decide, by decide, by decide, by decide, by decide⟩

/-- **C2, amended.**  In the Firestore revision the claim holds as stated:
whenever two or more tool checks fire, the response is that of the
earliest firing check in the order weather, calculation/conversion,
translation, news, social, internet; no tool later in the order than the
responding one is invoked, and the AI is not.  In the local-storage
revision the chain is first-match-wins over the branch *gates*: at most
one tool branch runs per turn, and the tool response is the first firing
gate's result (possibly `none`, in which case the AI fallback runs). -/
theorem claim2_first_match_wins :
    (∀ (env : EnvA) (hist : List FDoc) (inp : String) (i j : ToolIdx),
      toolPos i < toolPos j →
      (anyaBranch env inp i).isSome = true →
      (anyaBranch env inp j).isSome = true →
      ∃ k r, firstToolA env inp = some (k, r) ∧ toolPos k ≤ toolPos i ∧
        (toolChainAnya env hist inp).1 = r ∧
        (∀ t, CallEvt.tool t ∈ (toolChainAnya env hist inp).2 → toolPos t ≤ toolPos k) ∧
        CallEvt.ai ∉ (toolChainAnya env hist inp).2) ∧
    (∀ (env : Env13) (inp : String),
      (toolPhase13 env inp).2.length ≤ 1 ∧
      (toolPhase13 env inp).1 = (gateFirst13 inp).bind (v13Body env inp)) := by
  constructor
  · intro env hist inp i j hij hi hj
    have hne : ¬ firstToolA env inp = none := by
      intro hnone
      rw [firstToolA_none_iff] at hnone
      rw [hnone i] at hi
      cases hi
    obtain ⟨p, hp⟩ := Option.ne_none_iff_exists'.mp hne
    obtain ⟨k, r⟩ := p
    refine ⟨k, r, hp, firstToolA_min env inp k r i hp hi, ?_, ?_, ?_⟩
    · rw [chainA_first, hp]
    · exact chainA_calls_bound env hist inp k r hp
    · intro hmem
      rw [chainA_ai_mem] at hmem
      exact hne hmem
  · intro env inp
    exact ⟨toolPhase13_len env inp, toolPhase13_resp env inp⟩

/-- Witness for C2: `what is the weather in london` fires both the weather
check (position 0) and the internet-search check (position 5, via
`what is the (.+)`); the weather tool answers and no later tool or AI
runs.  The local-storage part is instantiated on the same utterance. -/
theorem claim2_witness :
    (∃ k r, firstToolA envA0 "what is the weather in london" = some (k, r) ∧
      toolPos k ≤ toolPos .weather ∧
      (toolChainAnya envA0 [] "what is the weather in london").1 = r ∧
      (∀ t, CallEvt.tool t ∈ (toolChainAnya envA0 [] "what is the weather in london").2 →
        toolPos t ≤ toolPos k) ∧
      CallEvt.ai ∉ (toolChainAnya envA0 [] "what is the weather in london").2) ∧
    (toolPhase13 env13C "what is the weather in london").2.length ≤ 1 ∧
    (toolPhase13 env13C "what is the weather in london").1
      = (gateFirst13 "what is the weather in london").bind
          (v13Body env13C "what is the weather in london") := by
  refine ⟨claim2_first_match_wins.1 envA0 [] "what is the weather in london"
      .weather .internet (by decide) (by decide) (by decide),
    (claim2_first_match_wins.2 env13C "what is the weather in london").1,
    (claim2_first_match_wins.2 env13C "what is the weather in london").2⟩

/-- **C6.**  After every processed turn the conversation is persisted with
the user message and the produced response appended: the Firestore
revision adds both records to the per-user `chat_history` collection
(when its `addDoc` calls succeed), and the local-storage revision leaves
`localStorage['chatHistory']` equal to the full updated chat history,
which ends with exactly those two records. -/
theorem claim6_history_persisted :
    (∀ (env : EnvA) (st : AnyaSt) (raw : String),
      jsTrim raw ≠ "" → env.persistOk = true →
      ∃ rc, (handleSendAnya env st raw).2 = some rc ∧
        (handleSendAnya env st raw).1.store
          = st.store ++ [newUserMessageA (jsTrim raw) env.now,
                         modelMessageA rc.1 env.now]) ∧
    (∀ (env : Env13) (st : V13St) (raw : String),
      jsTrim raw ≠ "" →
      ∃ rc, (handleSend13 env st raw).2 = some rc ∧
        (handleSend13 env st raw).1.storage
          = some (st.chatHistory ++ [userMessage13 (jsTrim raw) env.now,
                                     anyaMessage13 rc.1 env.now]) ∧
        (handleSend13 env st raw).1.storage
          = some ((handleSend13 env st raw).1.chatHistory)) := by
  constructor
  · intro env st raw hne hok
    unfold handleSendAnya
    rw [if_neg hne]
    refine ⟨_, rfl, ?_⟩
    simp [hok]
  · intro env st raw hne
    unfold handleSend13
    rw [if_neg hne]
    exact ⟨_, rfl, by simp, rfl⟩

/-- Witness for C6: one concrete turn in each revision. -/
theorem claim6_witness :
    (∃ rc, (handleSendAnya envA0 ⟨cInit, [], []⟩ "hello there").2 = some rc ∧
      (handleSendAnya envA0 ⟨cInit, [], []⟩ "hello there").1.store
        = [] ++ [newUserMessageA (jsTrim "hello there") envA0.now,
                 modelMessageA rc.1 envA0.now]) ∧
    (∃ rc, (handleSend13 env13C ⟨cInit, [], none⟩ "hello there").2 = some rc ∧
      (handleSend13 env13C ⟨cInit, [], none⟩ "hello there").1.storage
        = some ([] ++ [userMessage13 (jsTrim "hello there") env13C.now,
                       anyaMessage13 rc.1 env13C.now]) ∧
      (handleSend13 env13C ⟨cInit, [], none⟩ "hello there").1.storage
        = some ((handleSend13 env13C ⟨cInit, [], none⟩ "hello there").1.chatHistory)) := by
  exact ⟨claim6_history_persisted.1 envA0 ⟨cInit, [], []⟩ "hello there" (by decide) rfl,
    claim6_history_persisted.2 env13C ⟨cInit, [], none⟩ "hello there" (by decide)⟩

/-!
### Digit-string machinery for the arithmetic claim
-/

theorem lowChar_digitChar : ∀ d, lowChar (digitChar d) = digitChar d
  | 0 => rfl
  | 1 => rfl
  | 2 => rfl
  | 3 => rfl
  | 4 => rfl
  | 5 => rfl
  | 6 => rfl
  | 7 => rfl
  | 8 => rfl
  | 9 => rfl
  | _ + 10 => rfl

theorem isWSp_digitChar : ∀ d, isWSp (digitChar d) = false
  | 0 => rfl
  | 1 => rfl
  | 2 => rfl
  | 3 => rfl
  | 4 => rfl
  | 5 => rfl
  | 6 => rfl
  | 7 => rfl
  | 8 => rfl
  | 9 => rfl
  | _ + 10 => rfl

theorem isDig_digitChar : ∀ d, isDig (digitChar d) = true
  | 0 => rfl
  | 1 => rfl
  | 2 => rfl
  | 3 => rfl
  | 4 => rfl
  | 5 => rfl
  | 6 => rfl
  | 7 => rfl
  | 8 => rfl
  | 9 => rfl
  | _ + 10 => rfl

theorem isMathCls_digitChar : ∀ d, isMathCls (digitChar d) = true
  | 0 => rfl
  | 1 => rfl
  | 2 => rfl
  | 3 => rfl
  | 4 => rfl
  | 5 => rfl
  | 6 => rfl
  | 7 => rfl
  | 8 => rfl
  | 9 => rfl
  | _ + 10 => rfl

theorem isOpChar_digitChar : ∀ d, isOpChar (digitChar d) = false
  | 0 => rfl
  | 1 => rfl
  | 2 => rfl
  | 3 => rfl
  | 4 => rfl
  | 5 => rfl
  | 6 => rfl
  | 7 => rfl
  | 8 => rfl
  | 9 => rfl
  | _ + 10 => rfl

theorem replXDiv_digitChar : ∀ d, replXDiv (digitChar d) = digitChar d
  | 0 => rfl
  | 1 => rfl
  | 2 => rfl
  | 3 => rfl
  | 4 => rfl
  | 5 => rfl
  | 6 => rfl
  | 7 => rfl
  | 8 => rfl
  | 9 => rfl
  | _ + 10 => rfl

theorem digC_digitChar (d : Nat) (h : d < 10) : digC (digitChar d) = (d : Int) := by
  interval_cases d <;> rfl

/-- Stripping a literal from itself followed by anything. -/
theorem stripLit_append (xs ys : List Char) : stripLitL xs (xs ++ ys) = some ys := by
  induction xs with
  | nil => rfl
  | cons c rest ih => simp [stripLitL, ih]

/-- When the whole remaining input lies in the class, the greedy matcher
hands the continuation the full input (it tries the longest split
first). -/
theorem greedyPlus_full {α : Type} (p : Char → Bool)
    (k : List Char → List Char → Option α) (v : α) :
    ∀ (s acc : List Char), s ≠ [] → (∀ c ∈ s, p c = true) →
      k (acc.reverse ++ s) [] = some v → greedyPlus p acc s k = some v := by
  intro s
  induction s with
  | nil => intro acc h _ _; exact absurd rfl h
  | cons c s' ih =>
    intro acc _ hall hk
    have hpc : p c = true := hall c (by simp)
    cases s' with
    | nil =>
      simp only [greedyPlus, hpc, if_true]
      simpa using hk
    | cons c2 s'' =>
      have h1 : greedyPlus p (c :: acc) (c2 :: s'') k = some v := by
        refine ih (c :: acc) (by simp) (fun x hx => hall x (by simp [hx])) ?_
        simpa [List.append_assoc] using hk
      rw [show greedyPlus p acc (c :: c2 :: s'') k
            = (greedyPlus p (c :: acc) (c2 :: s'') k <|> k (c :: acc).reverse (c2 :: s''))
          from by simp only [greedyPlus, hpc, if_true]]
      rw [h1]
      rfl

/-- The tokenizer accumulates an unbroken digit run into `currentNum`. -/
theorem toParts_digits (ds : List Nat) :
    ∀ (rest cur : List Char),
      toParts (ds.map digitChar ++ rest) cur
        = toParts rest ((ds.map digitChar).reverse ++ cur) := by
  induction ds with
  | nil => intro rest cur; simp
  | cons d ds' ih =>
    intro rest cur
    simp only [List.map_cons, List.cons_append]
    rw [show toParts (digitChar d :: (ds'.map digitChar ++ rest)) cur
          = toParts (ds'.map digitChar ++ rest) (digitChar d :: cur)
        from by simp only [toParts, isOpChar_digitChar, isWSp_digitChar,
          Bool.false_eq_true, if_false]]
    rw [ih rest (digitChar d :: cur)]
    simp

/-- The accumulated digit value, with a running accumulator. -/
theorem digitsVal_digits (ds : List Nat) :
    ∀ n : Nat, (∀ d ∈ ds, d < 10) →
      digitsVal ⟨(n : Int), 1⟩ (ds.map digitChar)
        = ⟨((ds.foldl (fun a d => 10 * a + d) n : Nat) : Int), 1⟩ := by
  induction ds with
  | nil => intro n _; simp [digitsVal]
  | cons d ds' ih =>
    intro n h
    simp only [List.map_cons, digitsVal]
    have hacc : fAdd (fMul (Frac.ofInt 10) ⟨(n : Int), 1⟩)
        (Frac.ofInt (digC (digitChar d))) = ⟨((10 * n + d : Nat) : Int), 1⟩ := by
      rw [digC_digitChar d (h d (by simp))]
      simp [fAdd, fMul, Frac.ofInt]
    rw [hacc, ih (10 * n + d) (fun x hx => h x (by simp [hx]))]
    simp [List.foldl]

/-- `parseFloat` on a pure digit string yields its integer value. -/
theorem parseFloatQ_digits (ds : List Nat) (hne : ds ≠ [])
    (hlt : ∀ d ∈ ds, d < 10) :
    parseFloatQ (ds.map digitChar) = .val ⟨((natValL ds : Nat) : Int), 1⟩ := by
  unfold parseFloatQ
  have htake : (ds.map digitChar).takeWhile isDig = ds.map digitChar := by
    rw [List.takeWhile_eq_self_iff]
    intro c hc
    obtain ⟨d, -, rfl⟩ := List.mem_map.mp hc
    exact isDig_digitChar d
  have hdrop : (ds.map digitChar).dropWhile isDig = [] := by
    rw [List.dropWhile_eq_nil_iff]
    intro c hc
    obtain ⟨d, -, rfl⟩ := List.mem_map.mp hc
    exact isDig_digitChar d
  rw [htake, hdrop]
  have hmapne : ds.map digitChar ≠ [] := by simp [hne]
  simp only [List.isEmpty_iff, hmapne, if_false]
  rw [show ((0 : Int)) = ((0 : Nat) : Int) from rfl]
  rw [show (Frac.ofInt ((0 : Nat) : Int)) = (⟨((0 : Nat) : Int), 1⟩ : Frac) from rfl]
  rw [digitsVal_digits ds 0 hlt]
  rfl

/-- Tokenizer steps on the three separator characters, and at the end of
the expression. -/
theorem toParts_space (rest cur : List Char) :
    toParts (' ' :: rest) cur = flushNum cur ++ toParts rest [] := rfl

theorem toParts_plus (rest cur : List Char) :
    toParts ('+' :: rest) cur
      = flushNum cur ++ (JVal.str "+" :: toParts rest []) := rfl

theorem toParts_star (rest cur : List Char) :
    toParts ('*' :: rest) cur
      = flushNum cur ++ (JVal.str "*" :: toParts rest []) := rfl

theorem toParts_nil (cur : List Char) : toParts [] cur = flushNum cur := rfl

/-- Flushing a non-empty accumulator pushes one parsed number. -/
theorem flushNum_ne (cur : List Char) (h : cur ≠ []) :
    flushNum cur = [JVal.num (parseFloatQ cur.reverse)] := by
  simp [flushNum, h]

/-- The arithmetic regex matches `what is A + B * C` at position 0 via its
first alternative: `\s+` takes the single space (the next character is a
digit) and the greedy class consumes the rest of the query, which is the
capture. -/
theorem reFind_mathRE_query (dA dB dC : List Nat) (hA : dA ≠ []) :
    reFind mathRE ("what is ".data ++
        (dA.map digitChar ++ (" + ".data ++
          (dB.map digitChar ++ (" * ".data ++ dC.map digitChar)))))
      = some (0, [dA.map digitChar ++ (" + ".data ++
          (dB.map digitChar ++ (" * ".data ++ dC.map digitChar)))]) := by
  obtain ⟨d0, dA', rfl⟩ : ∃ d0 dA', dA = d0 :: dA' := by
    cases dA with
    | nil => exact absurd rfl hA
    | cons d0 dA' => exact ⟨d0, dA', rfl⟩
  set A := (d0 :: dA').map digitChar with hAdef
  set rest0 := A ++ (" + ".data ++ (dB.map digitChar ++ (" * ".data ++ dC.map digitChar)))
    with hrest0
  have hne : rest0 ≠ [] := by simp [hrest0, hAdef]
  have hcls : ∀ c ∈ rest0, isMathCls c = true := by
    intro c hc
    rw [hrest0] at hc
    simp only [List.mem_append] at hc
    rcases hc with hc | hc | hc | hc | hc
    · obtain ⟨d, -, rfl⟩ := List.mem_map.mp hc
      exact isMathCls_digitChar d
    · fin_cases hc <;> decide
    · obtain ⟨d, -, rfl⟩ := List.mem_map.mp hc
      exact isMathCls_digitChar d
    · fin_cases hc <;> decide
    · obtain ⟨d, -, rfl⟩ := List.mem_map.mp hc
      exact isMathCls_digitChar d
  have hk1 : matchSeq [RAtom.plusC isMathCls true] rest0 [] = some [rest0] := by
    have := greedyPlus_full (α := List (List Char)) isMathCls
      (fun g rest => matchSeq [] rest [g]) [rest0] rest0 [] hne hcls rfl
    exact this
  have hseq : matchSeq [RAtom.lit "what is".data, RAtom.plusC isWSp false,
      RAtom.plusC isMathCls true] ("what is ".data ++ rest0) [] = some [rest0] := by
    have hstrip : stripLitL "what is".data ("what is ".data ++ rest0)
        = some (' ' :: rest0) := stripLit_append "what is".data (' ' :: rest0)
    rw [show matchSeq [RAtom.lit "what is".data, RAtom.plusC isWSp false,
          RAtom.plusC isMathCls true] ("what is ".data ++ rest0) []
        = (match stripLitL "what is".data ("what is ".data ++ rest0) with
           | some rest => matchSeq [RAtom.plusC isWSp false,
               RAtom.plusC isMathCls true] rest []
           | none => none) from rfl]
    rw [hstrip]
    show greedyPlus isWSp [] (' ' :: rest0)
      (fun _ rest => matchSeq [RAtom.plusC isMathCls true] rest []) = some [rest0]
    rw [show greedyPlus isWSp [] (' ' :: rest0)
          (fun _ rest => matchSeq [RAtom.plusC isMathCls true] rest [])
        = ((greedyPlus isWSp [' '] rest0
            (fun _ rest => matchSeq [RAtom.plusC isMathCls true] rest [])) <|>
           matchSeq [RAtom.plusC isMathCls true] rest0 []) from rfl]
    have hws : greedyPlus isWSp [' '] rest0
        (fun _ rest => matchSeq [RAtom.plusC isMathCls true] rest [])
        = (none : Option (List (List Char))) := by
      rw [hrest0, hAdef]
      rw [show ((d0 :: dA').map digitChar ++ (" + ".data ++
            (dB.map digitChar ++ (" * ".data ++ dC.map digitChar))))
          = digitChar d0 :: (dA'.map digitChar ++ (" + ".data ++
            (dB.map digitChar ++ (" * ".data ++ dC.map digitChar)))) from rfl]
      simp only [greedyPlus, isWSp_digitChar, Bool.false_eq_true, if_false]
    rw [hws, hk1]
    rfl
  have htry : tryAlts mathRE ("what is ".data ++ rest0) = some (0, [rest0]) := by
    show tryAltsGo ("what is ".data ++ rest0) 0 mathRE = some (0, [rest0])
    rw [show tryAltsGo ("what is ".data ++ rest0) 0 mathRE
        = (match matchSeq [RAtom.lit "what is".data, RAtom.plusC isWSp false,
             RAtom.plusC isMathCls true] ("what is ".data ++ rest0) [] with
           | some caps => some (0, caps)
           | none => tryAltsGo ("what is ".data ++ rest0) 1
               [[RAtom.lit "calculate".data, RAtom.plusC isWSp false,
                 RAtom.plusC isMathCls true]]) from rfl]
    rw [hseq]
  rw [show reFind mathRE ("what is ".data ++ rest0)
      = (tryAlts mathRE ("what is ".data ++ rest0) <|>
         reFind mathRE ("hat is ".data ++ rest0)) from rfl]
  rw [htry]
  rfl

/-- `applyOp` equations for the four operator strings. -/
theorem applyOp_plus (x y : JVal) :
    applyOp x (JVal.str "+") y = .ok (jsAddV x y) := rfl

theorem applyOp_minus (x y : JVal) :
    applyOp x (JVal.str "-") y = .ok (.num (jnSub (toNumJ x) (toNumJ y))) := rfl

theorem applyOp_star (x y : JVal) :
    applyOp x (JVal.str "*") y = .ok (.num (jnMul (toNumJ x) (toNumJ y))) := rfl

theorem applyOp_div (x y : JVal) :
    applyOp x (JVal.str "/") y
      = (if (match y with | JVal.num v => v.isZero | _ => false) then .error ()
         else .ok (.num (jnDiv (toNumJ x) (toNumJ y)))) := rfl

/-- `applyOp` for a division with a number as right operand: the
`num === 0` test is the operand's zero test. -/
theorem applyOp_div_num (x : JVal) (v : Frac) :
    applyOp x (JVal.str "/") (JVal.num (JNum.val v))
      = (if v.isZero then .error ()
         else .ok (.num (jnDiv (toNumJ x) (JNum.val v)))) := rfl

/-- Left-to-right evaluation of `a + b * c` as tokenized: the sum is
computed first, so the value is `(a + b) * c`. -/
theorem evalPairs_abc (a b c : Int) :
    evalPairs (JVal.num (JNum.val ⟨a, 1⟩))
      [JVal.str "+", JVal.num (JNum.val ⟨b, 1⟩), JVal.str "*",
       JVal.num (JNum.val ⟨c, 1⟩)]
      = .ok (JVal.num (JNum.val ⟨(a + b) * c, 1⟩)) := by
  simp only [evalPairs, applyOp_plus, applyOp_star, jsAddV, toNumJ, jnAdd, jnMul]
  have h1 : fAdd ⟨a, 1⟩ ⟨b, 1⟩ = ⟨a + b, 1⟩ := by simp [fAdd]
  have h2 : fMul ⟨a + b, 1⟩ ⟨c, 1⟩ = ⟨(a + b) * c, 1⟩ := by simp [fMul]
  rw [h1, h2]

/-- Lowercasing is the identity on digit strings. -/
theorem map_lowChar_digits (ds : List Nat) :
    (ds.map digitChar).map lowChar = ds.map digitChar := by
  rw [List.map_map]
  exact List.map_congr_left (fun d _ => lowChar_digitChar d)

/-- The `x`/`÷` replacement is the identity on digit strings. -/
theorem map_replXDiv_digits (ds : List Nat) :
    (ds.map digitChar).map replXDiv = ds.map digitChar := by
  rw [List.map_map]
  exact List.map_congr_left (fun d _ => replXDiv_digitChar d)

/-- Lowercasing the constructed query is the identity. -/
theorem jsToLower_query (dA dB dC : List Nat) :
    (jsToLower (mkABCQuery dA dB dC)).data
      = "what is ".data ++ (dA.map digitChar ++ (" + ".data ++
          (dB.map digitChar ++ (" * ".data ++ dC.map digitChar)))) := by
  show ("what is ".data ++ (dA.map digitChar ++ (" + ".data ++
      (dB.map digitChar ++ (" * ".data ++ dC.map digitChar))))).map lowChar = _
  simp only [List.map_append, map_lowChar_digits]
  rw [show ("what is ".data).map lowChar = "what is ".data from by decide,
    show (" + ".data).map lowChar = " + ".data from by decide,
    show (" * ".data).map lowChar = " * ".data from by decide]

/-- The replacement pass leaves the captured expression unchanged. -/
theorem map_replXDiv_capture (dA dB dC : List Nat) :
    (dA.map digitChar ++ (" + ".data ++
      (dB.map digitChar ++ (" * ".data ++ dC.map digitChar)))).map replXDiv
      = dA.map digitChar ++ (" + ".data ++
          (dB.map digitChar ++ (" * ".data ++ dC.map digitChar))) := by
  simp only [List.map_append, map_replXDiv_digits]
  rw [show (" + ".data).map replXDiv = " + ".data from by decide,
    show (" * ".data).map replXDiv = " * ".data from by decide]

/-- Tokenizing the captured expression yields the five parts
`[A, +, B, *, C]`. -/
theorem toParts_capture (dA dB dC : List Nat) (hA : dA ≠ []) (hB : dB ≠ [])
    (hC : dC ≠ [])
    (hA10 : ∀ d ∈ dA, d < 10) (hB10 : ∀ d ∈ dB, d < 10)
    (hC10 : ∀ d ∈ dC, d < 10) :
    toParts (dA.map digitChar ++ (" + ".data ++
      (dB.map digitChar ++ (" * ".data ++ dC.map digitChar)))) []
      = [JVal.num (JNum.val ⟨((natValL dA : Nat) : Int), 1⟩), JVal.str "+",
         JVal.num (JNum.val ⟨((natValL dB : Nat) : Int), 1⟩), JVal.str "*",
         JVal.num (JNum.val ⟨((natValL dC : Nat) : Int), 1⟩)] := by
  have hmapA : dA.map digitChar ≠ [] := by simp [hA]
  have hmapB : dB.map digitChar ≠ [] := by simp [hB]
  have hmapC : dC.map digitChar ≠ [] := by simp [hC]
  rw [toParts_digits dA]
  rw [show (" + ".data ++ (dB.map digitChar ++ (" * ".data ++ dC.map digitChar)))
      = ' ' :: ('+' :: (' ' :: (dB.map digitChar ++
          (" * ".data ++ dC.map digitChar)))) from rfl]
  rw [toParts_space, toParts_plus, toParts_space]
  rw [toParts_digits dB]
  rw [show (" * ".data ++ dC.map digitChar)
      = ' ' :: ('*' :: (' ' :: dC.map digitChar)) from rfl]
  rw [toParts_space, toParts_star, toParts_space]
  rw [show toParts (dC.map digitChar) [] = toParts (dC.map digitChar ++ []) []
      from by rw [List.append_nil]]
  rw [toParts_digits dC, toParts_nil]
  simp only [show flushNum ([] : List Char) = ([] : List JVal) from rfl,
    List.append_nil, List.nil_append]
  rw [flushNum_ne ((dA.map digitChar).reverse) (by simp [hmapA]),
    flushNum_ne ((dB.map digitChar).reverse) (by simp [hmapB]),
    flushNum_ne ((dC.map digitChar).reverse) (by simp [hmapC])]
  simp only [List.reverse_reverse]
  rw [parseFloatQ_digits dA hA hA10, parseFloatQ_digits dB hB hB10,
    parseFloatQ_digits dC hC hC10]
  rfl

/-- In a well-formed alternating expression, a division whose right
operand is the number zero always raises `Division by zero` (an earlier
division by zero raises as well); the loop never completes normally. -/
theorem evalPairs_div_zero (ops : List (Char × Frac)) :
    ∀ x : Frac,
      (∀ p ∈ ops, p.1 = '+' ∨ p.1 = '-' ∨ p.1 = '*' ∨ p.1 = '/') →
      (∃ p ∈ ops, p.1 = '/' ∧ p.2.isZero = true) →
      evalPairs (JVal.num (JNum.val x)) (flatOps ops) = .error () := by
  induction ops with
  | nil => intro x _ hex; simp at hex
  | cons hd rest ih =>
    intro x hall hex
    obtain ⟨c, v⟩ := hd
    rw [show flatOps ((c, v) :: rest)
        = JVal.str (String.singleton c) :: JVal.num (JNum.val v) :: flatOps rest
      from by simp [flatOps]]
    by_cases hz : c = '/' ∧ v.isZero = true
    · obtain ⟨rfl, hzz⟩ := hz
      rw [show String.singleton '/' = "/" from rfl]
      rw [show evalPairs (JVal.num (JNum.val x))
            (JVal.str "/" :: JVal.num (JNum.val v) :: flatOps rest)
          = (match applyOp (JVal.num (JNum.val x)) (JVal.str "/")
               (JVal.num (JNum.val v)) with
             | .ok acc2 => evalPairs acc2 (flatOps rest)
             | .error e => .error e) from rfl]
      rw [applyOp_div_num]
      simp [hzz]
    · have hc := hall (c, v) (by simp)
      obtain ⟨p, hpmem, hp⟩ := hex
      have hpr : p ∈ rest := by
        rcases List.mem_cons.mp hpmem with heq | h
        · exfalso
          rw [heq] at hp
          exact hz ⟨hp.1, hp.2⟩
        · exact h
      have htail : ∀ q ∈ rest, q.1 = '+' ∨ q.1 = '-' ∨ q.1 = '*' ∨ q.1 = '/' :=
        fun q hq => hall q (by simp [hq])
      rcases hc with rfl | rfl | rfl | rfl
      · rw [show String.singleton '+' = "+" from rfl]
        rw [show evalPairs (JVal.num (JNum.val x))
              (JVal.str "+" :: JVal.num (JNum.val v) :: flatOps rest)
            = (match applyOp (JVal.num (JNum.val x)) (JVal.str "+")
                 (JVal.num (JNum.val v)) with
               | .ok acc2 => evalPairs acc2 (flatOps rest)
               | .error e => .error e) from rfl]
        rw [applyOp_plus]
        show evalPairs (JVal.num (JNum.val (fAdd x v))) (flatOps rest) = .error ()
        exact ih (fAdd x v) htail ⟨p, hpr, hp⟩
      · rw [show String.singleton '-' = "-" from rfl]
        rw [show evalPairs (JVal.num (JNum.val x))
              (JVal.str "-" :: JVal.num (JNum.val v) :: flatOps rest)
            = (match applyOp (JVal.num (JNum.val x)) (JVal.str "-")
                 (JVal.num (JNum.val v)) with
               | .ok acc2 => evalPairs acc2 (flatOps rest)
               | .error e => .error e) from rfl]
        rw [applyOp_minus]
        show evalPairs (JVal.num (JNum.val (fSub x v))) (flatOps rest) = .error ()
        exact ih (fSub x v) htail ⟨p, hpr, hp⟩
      · rw [show String.singleton '*' = "*" from rfl]
        rw [show evalPairs (JVal.num (JNum.val x))
              (JVal.str "*" :: JVal.num (JNum.val v) :: flatOps rest)
            = (match applyOp (JVal.num (JNum.val x)) (JVal.str "*")
                 (JVal.num (JNum.val v)) with
               | .ok acc2 => evalPairs acc2 (flatOps rest)
               | .error e => .error e) from rfl]
        rw [applyOp_star]
        show evalPairs (JVal.num (JNum.val (fMul x v))) (flatOps rest) = .error ()
        exact ih (fMul x v) htail ⟨p, hpr, hp⟩
      · have hzz : v.isZero = false := by
          cases hvz : v.isZero with
          | false => rfl
          | true => exact absurd ⟨rfl, hvz⟩ hz
        rw [show String.singleton '/' = "/" from rfl]
        rw [show evalPairs (JVal.num (JNum.val x))
              (JVal.str "/" :: JVal.num (JNum.val v) :: flatOps rest)
            = (match applyOp (JVal.num (JNum.val x)) (JVal.str "/")
                 (JVal.num (JNum.val v)) with
               | .ok acc2 => evalPairs acc2 (flatOps rest)
               | .error e => .error e) from rfl]
        rw [applyOp_div_num]
        simp only [hzz, Bool.false_eq_true, if_false]
        rw [show jnDiv (toNumJ (JVal.num (JNum.val x))) (JNum.val v)
            = (if v.isZero then JNum.nan else JNum.val (fDiv x v)) from rfl]
        simp only [hzz, Bool.false_eq_true, if_false]
        show evalPairs (JVal.num (JNum.val (fDiv x v))) (flatOps rest) = .error ()
        exact ih (fDiv x v) htail ⟨p, hpr, hp⟩

/-- **C9, counterexample.**  The claim's second half fails as stated: the
expression `(5 / 0` contains a division whose right operand is the
literal 0, yet the evaluator never applies it — after the leading `(`
every operator lands on an even index — so `performCalculationOrConversion`
returns `The result is: (` instead of the apology. -/
theorem claim9_cex_div_zero_unreached :
    performCalculationOrConversion "what is (5 / 0" = some "The result is: (" ∧
    "The result is: (" ≠ mathApology := by
  refine ⟨by rfl, by decide⟩

/-- **C9, amended.**  The evaluator applies binary operators strictly left
to right with no precedence: for digit literals `A`, `B`, `C` the query
`what is A + B * C` answers `(A + B) · C`.  Division by a reached literal
zero raises and yields the fixed apology: for every *well-formed
alternating* expression (number, operator, number, …) containing `/ 0`
the loop raises `Division by zero`, and concretely `what is 8 / 0`
returns the apology. -/
theorem claim9_left_to_right_no_precedence :
    (∀ dA dB dC : List Nat, dA ≠ [] → dB ≠ [] → dC ≠ [] →
      (∀ d ∈ dA, d < 10) → (∀ d ∈ dB, d < 10) → (∀ d ∈ dC, d < 10) →
      performCalculationOrConversion (mkABCQuery dA dB dC)
        = some ("The result is: "
            ++ intRepr (((natValL dA + natValL dB) * natValL dC : Nat) : Int))) ∧
    (∀ (x : Frac) (ops : List (Char × Frac)),
      (∀ p ∈ ops, p.1 = '+' ∨ p.1 = '-' ∨ p.1 = '*' ∨ p.1 = '/') →
      (∃ p ∈ ops, p.1 = '/' ∧ p.2.isZero = true) →
      evalPairs (JVal.num (JNum.val x)) (flatOps ops) = .error ()) ∧
    performCalculationOrConversion "what is 8 / 0" = some mathApology := by
  refine ⟨?_, fun x ops => evalPairs_div_zero ops x, by rfl⟩
  intro dA dB dC hA hB hC hA10 hB10 hC10
  have hre : reFind mathRE ((jsToLower (mkABCQuery dA dB dC)).data)
      = some (0, [dA.map digitChar ++ (" + ".data ++
          (dB.map digitChar ++ (" * ".data ++ dC.map digitChar)))]) := by
    rw [jsToLower_query]
    exact reFind_mathRE_query dA dB dC hA
  have hcapne : (dA.map digitChar ++ (" + ".data ++
      (dB.map digitChar ++ (" * ".data ++ dC.map digitChar)))).isEmpty = false := by
    cases dA with
    | nil => exact absurd rfl hA
    | cons d0 dA' => rfl
  simp only [performCalculationOrConversion]
  rw [hre]
  simp only [List.getD_cons_zero, hcapne, Bool.false_eq_true, if_false]
  rw [map_replXDiv_capture]
  simp only [evaluateExpression]
  rw [toParts_capture dA dB dC hA hB hC hA10 hB10 hC10]
  rw [show (match ([JVal.num (JNum.val ⟨((natValL dA : Nat) : Int), 1⟩), JVal.str "+",
        JVal.num (JNum.val ⟨((natValL dB : Nat) : Int), 1⟩), JVal.str "*",
        JVal.num (JNum.val ⟨((natValL dC : Nat) : Int), 1⟩)] : List JVal) with
      | [] => Except.ok JVal.undef
      | p0 :: rest => evalPairs p0 rest)
      = evalPairs (JVal.num (JNum.val ⟨((natValL dA : Nat) : Int), 1⟩))
          [JVal.str "+", JVal.num (JNum.val ⟨((natValL dB : Nat) : Int), 1⟩),
           JVal.str "*", JVal.num (JNum.val ⟨((natValL dC : Nat) : Int), 1⟩)]
      from rfl]
  rw [evalPairs_abc]
  simp only [jvRepr, jnRepr, fRepr, if_pos rfl]
  rw [show (((natValL dA : Nat) : Int) + ((natValL dB : Nat) : Int))
        * ((natValL dC : Nat) : Int)
      = (((natValL dA + natValL dB) * natValL dC : Nat) : Int) from by push_cast; ring]
  simp

/-- Witness for C9: `what is 12 + 3 * 4` evaluates left to right to 60
(not 24), and a concrete well-formed division by zero raises. -/
theorem claim9_witness :
    performCalculationOrConversion (mkABCQuery [1, 2] [3] [4])
      = some ("The result is: "
          ++ intRepr (((natValL [1, 2] + natValL [3]) * natValL [4] : Nat) : Int)) ∧
    evalPairs (JVal.num (JNum.val ⟨8, 1⟩)) (flatOps [('/', ⟨0, 1⟩)])
      = .error () := by
  constructor
  · exact claim9_left_to_right_no_precedence.1 [1, 2] [3] [4]
      (by decide) (by decide) (by decide) (by decide) (by decide) (by decide)
  · exact claim9_left_to_right_no_precedence.2.1 ⟨8, 1⟩ [('/', ⟨0, 1⟩)]
      (by decide) ⟨('/', ⟨0, 1⟩), by decide, by decide, by decide⟩

